import Mathlib

/-!
Shallow embedding of the todo-beads synchronization module.

The source is a TypeScript plugin that reconciles an in-memory todo list
against an external issue tracker invoked through `bd` shell commands.
We model:

* the mapping document (`TodoBeadsMapping`) as association lists, mirroring
  JavaScript object semantics (insertion order, first-key lookup);
* the tracker (`BeadsState`) as a list of issues plus a fresh-id counter;
* each external `bd` invocation as a state transition that also consumes a
  "failure tape" (`List Bool`): an empty tape means every call succeeds, a
  `false` entry injects a call failure (non-zero exit), matching the
  try/catch structure of the source;
* the persisted file (`FileContent`) distinguishing absent / unreadable /
  malformed / valid backing stores;
* a trace of all external effects (`Event`), used to reason about which
  tracker calls and saves a run performs.
-/

namespace TodoBeads

inductive TodoStatus where
  | pending
  | in_progress
  | completed
  | cancelled
deriving DecidableEq, Repr

inductive BeadsStatus where
  | «open»
  | in_progress
  | closed
deriving DecidableEq, Repr

/-- OpenCode todo item. The tool schema delivers `priority` as a plain
string (the TypeScript type is a union but the runtime value is unchecked),
so it is modelled as `String`. -/
structure TodoItem where
  id : String
  content : String
  status : TodoStatus
  priority : String
deriving DecidableEq, Repr

/-- Beads issue as parsed from `bd --json` output. -/
structure BeadsIssue where
  id : String
  title : String
  description : Option String
  status : BeadsStatus
  priority : Int
  issue_type : String
  notes : Option String
deriving DecidableEq, Repr

/-- Mapping between OpenCode todos and beads issues; association lists model
JavaScript `Record` objects. -/
structure TodoBeadsMapping where
  sessions : List (String × String)
  todos : List (String × List (String × String))
  lastSync : Nat
deriving DecidableEq, Repr

/-- PRIORITY_TO_BEADS lookup table (`Record<string, number>`). -/
def PRIORITY_TO_BEADS (p : String) : Option Int :=
  if p = "high" then some 1
  else if p = "medium" then some 2
  else if p = "low" then some 3
  else none

/-- PRIORITY_FROM_BEADS lookup table (`Record<number, priority>`). -/
def PRIORITY_FROM_BEADS (p : Int) : Option String :=
  if p = 0 then some "high"
  else if p = 1 then some "high"
  else if p = 2 then some "medium"
  else if p = 3 then some "low"
  else if p = 4 then some "low"
  else none

/-- STATUS_TO_BEADS table, total on the todo status union. -/
def STATUS_TO_BEADS : TodoStatus → BeadsStatus
  | TodoStatus.pending => BeadsStatus.«open»
  | TodoStatus.in_progress => BeadsStatus.in_progress
  | TodoStatus.completed => BeadsStatus.closed
  | TodoStatus.cancelled => BeadsStatus.closed

/-- Lookup in a JavaScript-object-like association list. -/
def recGet {α : Type} : List (String × α) → String → Option α
  | [], _ => none
  | (k, v) :: r, key => if k = key then some v else recGet r key

/-- Property write on a JavaScript-object-like association list: updates the
existing key in place or appends a new one (insertion order). -/
def recSet {α : Type} : List (String × α) → String → α → List (String × α)
  | [], key, v => [(key, v)]
  | (k, w) :: r, key, v =>
      if k = key then (k, v) :: r else (k, w) :: recSet r key v

/-- Property delete on a JavaScript-object-like association list. -/
def recDel {α : Type} : List (String × α) → String → List (String × α)
  | [], _ => []
  | (k, w) :: r, key =>
      if k = key then recDel r key else (k, w) :: recDel r key

/-- Backing file of the mapping store. `malformed` covers unparsable
content (JSON.parse throws), `unreadable` a failing read. -/
inductive FileContent where
  | absent
  | unreadable
  | malformed
  | valid (doc : TodoBeadsMapping)
deriving DecidableEq, Repr

/-- External tracker state: the issues it stores plus a counter used to
assign fresh issue ids. -/
structure BeadsState where
  issues : List BeadsIssue
  nextId : Nat
deriving DecidableEq, Repr

structure World where
  file : FileContent
  beads : BeadsState
deriving DecidableEq, Repr

/-- One recorded external effect: a `bd` command or a mapping-file save. -/
inductive Event where
  | create (title issue_type : String) (priority : Int)
      (parent : Option String) (description : String)
  | bdShow (id : String)
  | updateStatus (id : String) (status : BeadsStatus)
  | updateNotes (id : String) (notes : String)
  | close (id : String) (reason : String)
  | save (doc : TodoBeadsMapping)
deriving DecidableEq, Repr

/-- Run state threaded through the engine: the world, the remaining failure
tape and the trace of effects performed so far. -/
structure RunSt where
  world : World
  tape : List Bool
  trace : List Event
deriving DecidableEq, Repr

/-- Consume one tape entry; an exhausted tape yields success. -/
def takeTape : List Bool → Bool × List Bool
  | [] => (true, [])
  | b :: r => (b, r)

/-- Fresh issue ids assigned by the tracker ("bd-", "bd-x", "bd-xx", ...). -/
def mkXs (n : Nat) : String :=
  String.mk (List.replicate n 'x')

def freshId (n : Nat) : String :=
  "bd-" ++ mkXs n

/-- First-match lookup of an issue by id. -/
def lookupIssue : List BeadsIssue → String → Option BeadsIssue
  | [], _ => none
  | i :: r, id => if i.id = id then some i else lookupIssue r id

def applyStatus (issues : List BeadsIssue) (id : String) (s : BeadsStatus) :
    List BeadsIssue :=
  issues.map fun i => if i.id = id then { i with status := s } else i

def applyNotes (issues : List BeadsIssue) (id : String) (n : String) :
    List BeadsIssue :=
  issues.map fun i => if i.id = id then { i with notes := some n } else i

/-- Closing stores the close reason in the issue notes, which is how the
cancelled/completed distinction survives (the tracker has no native
"cancelled" status). -/
def applyClose (issues : List BeadsIssue) (id : String) (reason : String) :
    List BeadsIssue :=
  issues.map fun i =>
    if i.id = id then { i with status := BeadsStatus.closed, notes := some reason }
    else i

/-- Invocation of `bd show <id> --json`: fails (throws at the call site) if
the tape injects a failure or the issue does not exist. -/
def callShow (st : RunSt) (id : String) : Option BeadsIssue × RunSt :=
  let ok := (takeTape st.tape).1
  let tape' := (takeTape st.tape).2
  let res := if ok then lookupIssue st.world.beads.issues id else none
  (res, { st with tape := tape', trace := st.trace ++ [Event.bdShow id] })

/-- The issue a successful `bd create` stores: open, with the `-d` argument
as description and empty notes. -/
def newIssue (title issue_type : String) (priority : Int) (description : String)
    (id : String) : BeadsIssue :=
  { id := id, title := title, description := some description,
    status := BeadsStatus.«open», priority := priority,
    issue_type := issue_type, notes := none }

/-- Invocation of `bd create ... --json`: on success the tracker assigns a
fresh id and stores the new issue. -/
def callCreate (st : RunSt) (title issue_type : String) (priority : Int)
    (parent : Option String) (description : String) : Option String × RunSt :=
  let ok := (takeTape st.tape).1
  let tape' := (takeTape st.tape).2
  let tr := st.trace ++ [Event.create title issue_type priority parent description]
  if ok then
    let id := freshId st.world.beads.nextId
    (some id,
      { st with
        world := { st.world with
          beads := { issues := st.world.beads.issues ++
                       [newIssue title issue_type priority description id],
                     nextId := st.world.beads.nextId + 1 } },
        tape := tape', trace := tr })
  else
    (none, { st with tape := tape', trace := tr })

/-- Invocation of `bd update <id> --status <s> --json`. -/
def callUpdateStatus (st : RunSt) (id : String) (s : BeadsStatus) :
    Bool × RunSt :=
  let ok := (takeTape st.tape).1
  let tape' := (takeTape st.tape).2
  let tr := st.trace ++ [Event.updateStatus id s]
  if ok ∧ (lookupIssue st.world.beads.issues id).isSome then
    (true,
      { st with
        world := { st.world with
          beads := { st.world.beads with
            issues := applyStatus st.world.beads.issues id s } },
        tape := tape', trace := tr })
  else
    (false, { st with tape := tape', trace := tr })

/-- Invocation of `bd update <id> --notes <n> --json`. -/
def callUpdateNotes (st : RunSt) (id : String) (n : String) :
    Bool × RunSt :=
  let ok := (takeTape st.tape).1
  let tape' := (takeTape st.tape).2
  let tr := st.trace ++ [Event.updateNotes id n]
  if ok ∧ (lookupIssue st.world.beads.issues id).isSome then
    (true,
      { st with
        world := { st.world with
          beads := { st.world.beads with
            issues := applyNotes st.world.beads.issues id n } },
        tape := tape', trace := tr })
  else
    (false, { st with tape := tape', trace := tr })

/-- Invocation of `bd close <id> --reason <r> --json`: fails when the issue
is absent or already closed (the source tolerates this at every call site
that closes an existing issue). -/
def callClose (st : RunSt) (id : String) (reason : String) : Bool × RunSt :=
  let ok := (takeTape st.tape).1
  let tape' := (takeTape st.tape).2
  let tr := st.trace ++ [Event.close id reason]
  match lookupIssue st.world.beads.issues id with
  | some i =>
      if ok ∧ i.status ≠ BeadsStatus.closed then
        (true,
          { st with
            world := { st.world with
              beads := { st.world.beads with
                issues := applyClose st.world.beads.issues id reason } },
            tape := tape', trace := tr })
      else
        (false, { st with tape := tape', trace := tr })
  | none => (false, { st with tape := tape', trace := tr })

def emptyMapping : TodoBeadsMapping :=
  { sessions := [], todos := [], lastSync := 0 }

/-- loadMapping: reads the backing file; any read or parse failure yields
the freshly-initialized empty mapping (the catch-all in the source). -/
def loadMapping : FileContent → TodoBeadsMapping
  | FileContent.valid doc => doc
  | _ => emptyMapping

/-- saveMapping: stamps `lastSync` with the current time and writes the
whole document to the backing file. -/
def saveMapping (st : RunSt) (now : Nat) (m : TodoBeadsMapping) :
    TodoBeadsMapping × RunSt :=
  let m' := { m with lastSync := now }
  (m',
    { st with
      world := { st.world with file := FileContent.valid m' },
      trace := st.trace ++ [Event.save m'] })

/-- Anchor-creation half of getOrCreateSessionIssue: creates the epic,
records it, resets the session's todo map and persists the document. -/
def createSessionPart (st : RunSt) (now : Nat) (today : String)
    (sessionID : String) (m : TodoBeadsMapping) :
    Except String String × TodoBeadsMapping × RunSt :=
  let shortSessionID := sessionID.take 8
  let title := "OpenCode Session " ++ shortSessionID ++ " (" ++ today ++ ")"
  match callCreate st title "epic" 2 none
      ("Tracks todos for OpenCode session " ++ sessionID) with
  | (none, st') =>
      (Except.error ("Failed to create session issue: " ++ sessionID), m, st')
  | (some issueID, st') =>
      let m1 := { m with
        sessions := recSet m.sessions sessionID issueID,
        todos := recSet m.todos sessionID [] }
      let (m2, st2) := saveMapping st' now m1
      (Except.ok issueID, m2, st2)

/-- getOrCreateSessionIssue: verifies a recorded anchor with `bd show`, and
otherwise creates a new anchor (wiping the session's todo map). -/
def getOrCreateSessionIssue (st : RunSt) (now : Nat) (today : String)
    (sessionID : String) (m : TodoBeadsMapping) :
    Except String String × TodoBeadsMapping × RunSt :=
  match recGet m.sessions sessionID with
  | some sid =>
      match callShow st sid with
      | (some _, st1) => (Except.ok sid, m, st1)
      | (none, st1) => createSessionPart st1 now today sessionID m
  | none => createSessionPart st now today sessionID m

/-- createBeadsIssue: creates a child issue for a todo; a failure of the
create or of the immediately-applied status transition is rethrown as an
error (the whole function body sits in one try block). -/
def createBeadsIssue (st : RunSt) (sessionIssueID : String) (todo : TodoItem) :
    Except String String × RunSt :=
  let priority := (PRIORITY_TO_BEADS todo.priority).getD 2
  let notes := "OpenCode todo ID: " ++ todo.id
  match callCreate st todo.content "task" priority (some sessionIssueID) notes with
  | (none, st') =>
      (Except.error ("Failed to create beads issue for todo " ++ todo.id), st')
  | (some newId, st') =>
      match todo.status with
      | TodoStatus.in_progress =>
          let (ok, st2) := callUpdateStatus st' newId BeadsStatus.in_progress
          (if ok then Except.ok newId
           else Except.error ("Failed to create beads issue for todo " ++ todo.id),
           st2)
      | TodoStatus.completed =>
          let (ok, st2) := callClose st' newId "Completed"
          (if ok then Except.ok newId
           else Except.error ("Failed to create beads issue for todo " ++ todo.id),
           st2)
      | TodoStatus.cancelled =>
          let (ok, st2) := callClose st' newId "Cancelled in OpenCode"
          (if ok then Except.ok newId
           else Except.error ("Failed to create beads issue for todo " ++ todo.id),
           st2)
      | TodoStatus.pending => (Except.ok newId, st')

/-- updateBeadsIssue: pushes a correlated todo's status to the tracker;
all failures are swallowed at this call site. -/
def updateBeadsIssue (st : RunSt) (beadsID : String) (todo : TodoItem) : RunSt :=
  match STATUS_TO_BEADS todo.status with
  | BeadsStatus.closed =>
      let reason :=
        if todo.status = TodoStatus.cancelled then "Cancelled in OpenCode"
        else "Completed"
      (callClose st beadsID reason).2
  | s => (callUpdateStatus st beadsID s).2

def terminalTodo (t : TodoItem) : Bool :=
  t.status == TodoStatus.completed || t.status == TodoStatus.cancelled

def mkSummary (completed cancelled : Nat) : String :=
  "Session complete: " ++ toString completed ++ " completed, " ++
    toString cancelled ++ " cancelled"

/-- closeSessionIssue: writes a summary note and closes the anchor; both
calls sit in one try block, so a failing notes update skips the close and
any failure is swallowed. -/
def closeSessionIssue (st : RunSt) (sessionIssueID : String)
    (todos : List TodoItem) : RunSt :=
  let completed := (todos.filter fun t => t.status == TodoStatus.completed).length
  let cancelled := (todos.filter fun t => t.status == TodoStatus.cancelled).length
  let summary := mkSummary completed cancelled
  match callUpdateNotes st sessionIssueID summary with
  | (true, st1) => (callClose st1 sessionIssueID summary).2
  | (false, st1) => st1

/-- The per-todo loop of syncTodosToBeads: update correlated todos, create
issues for new ones; a create failure propagates (no catch in the loop). -/
def processTodos (st : RunSt) (sessionIssueID : String)
    (todoMap : List (String × String)) :
    List TodoItem → Except String (List (String × String)) × RunSt
  | [] => (Except.ok todoMap, st)
  | todo :: rest =>
      match recGet todoMap todo.id with
      | some bid =>
          processTodos (updateBeadsIssue st bid todo) sessionIssueID todoMap rest
      | none =>
          match createBeadsIssue st sessionIssueID todo with
          | (Except.error e, st') => (Except.error e, st')
          | (Except.ok bid, st') =>
              processTodos st' sessionIssueID (recSet todoMap todo.id bid) rest

/-- Removed-todo pass: iterates a snapshot of the correlation entries,
closing (tolerating failure) and deleting every entry whose todo id was not
seen in the incoming list. -/
def removeDeletedGo (st : RunSt) (cur : List (String × String))
    (seen : List String) :
    List (String × String) → List (String × String) × RunSt
  | [] => (cur, st)
  | (tid, bid) :: rest =>
      if tid ∈ seen then removeDeletedGo st cur seen rest
      else
        let st1 := (callClose st bid "Todo removed from OpenCode").2
        removeDeletedGo st1 (recDel cur tid) seen rest

/-- The `if (!mapping.todos[sessionID]) mapping.todos[sessionID] = {}` step. -/
def ensureTodos (m : TodoBeadsMapping) (sessionID : String) : TodoBeadsMapping :=
  if (recGet m.todos sessionID).isSome then m
  else { m with todos := recSet m.todos sessionID [] }

/-- syncTodosToBeads: the forward reconciliation pass. -/
def syncTodosToBeads (st : RunSt) (now : Nat) (today : String)
    (sessionID : String) (todos : List TodoItem) : Except String Unit × RunSt :=
  let mapping := loadMapping st.world.file
  match getOrCreateSessionIssue st now today sessionID mapping with
  | (Except.error e, _, st1) => (Except.error e, st1)
  | (Except.ok sessionIssueID, m1, st1) =>
      let m2 := ensureTodos m1 sessionID
      let todoMap := (recGet m2.todos sessionID).getD []
      match processTodos st1 sessionIssueID todoMap todos with
      | (Except.error e, st2) => (Except.error e, st2)
      | (Except.ok todoMap1, st2) =>
          let seen := todos.map fun t => t.id
          let (todoMap2, st3) := removeDeletedGo st2 todoMap1 seen todoMap1
          let allComplete := todos.all terminalTodo
          let st4 :=
            if allComplete && !todos.isEmpty then
              closeSessionIssue st3 sessionIssueID todos
            else st3
          let mF := { m2 with todos := recSet m2.todos sessionID todoMap2 }
          let (_, st5) := saveMapping st4 now mF
          (Except.ok (), st5)

/-- Decidable list-prefix test used by the substring check below. -/
def leadsList : List Char → List Char → Bool
  | [], _ => true
  | _ :: _, [] => false
  | a :: as, b :: bs => a == b && leadsList as bs

/-- Decidable substring occurrence (JavaScript `String.includes`). -/
def hasInfixList (pat : List Char) : List Char → Bool
  | [] => pat.isEmpty
  | c :: rest => leadsList pat (c :: rest) || hasInfixList pat rest

def notesHasCancelled : Option String → Bool
  | some n => hasInfixList "Cancelled".toList n.toList
  | none => false

/-- beadsIssueToTodo: reconstructs a todo from a tracker issue. -/
def beadsIssueToTodo (todoID : String) (issue : BeadsIssue) : TodoItem :=
  let status :=
    if issue.status = BeadsStatus.in_progress then TodoStatus.in_progress
    else if issue.status = BeadsStatus.closed then
      (if notesHasCancelled issue.notes then TodoStatus.cancelled
       else TodoStatus.completed)
    else TodoStatus.pending
  { id := todoID, content := issue.title, status := status,
    priority := (PRIORITY_FROM_BEADS issue.priority).getD "medium" }

/-- The show-and-collect loop of readTodosFromBeads; correlations whose
issue cannot be fetched are skipped. -/
def readLoop (st : RunSt) :
    List (String × String) → List TodoItem × RunSt
  | [] => ([], st)
  | (tid, bid) :: rest =>
      match callShow st bid with
      | (some issue, st1) =>
          let (acc, st2) := readLoop st1 rest
          (beadsIssueToTodo tid issue :: acc, st2)
      | (none, st1) => readLoop st1 rest

/-- readTodosFromBeads: the backward reconstruction pass. -/
def readTodosFromBeads (st : RunSt) (sessionID : String) :
    List TodoItem × RunSt :=
  let mapping := loadMapping st.world.file
  match recGet mapping.sessions sessionID with
  | none => ([], st)
  | some _ =>
      let todoMap := (recGet mapping.todos sessionID).getD []
      readLoop st todoMap

/-- Count of tracker create calls in a trace. -/
def createCount : List Event → Nat
  | [] => 0
  | Event.create _ _ _ _ _ :: r => createCount r + 1
  | _ :: r => createCount r

/-- Count of mapping-file saves in a trace. -/
def saveCount : List Event → Nat
  | [] => 0
  | Event.save _ :: r => saveCount r + 1
  | _ :: r => saveCount r

/-- The close events of a trace that target a given issue id. -/
def closesOn (a : String) (tr : List Event) : List Event :=
  tr.filter fun e =>
    match e with
    | Event.close id _ => id == a
    | _ => false

/-- Freshness of the tracker's id counter: ids at or beyond the counter are
not yet in use. Real trackers assign globally unique ids. -/
def FreshOk (b : BeadsState) : Prop :=
  ∀ k, b.nextId ≤ k → lookupIssue b.issues (freshId k) = none

/-- An issue id that is present and closed in a tracker state. -/
def closedAt (issues : List BeadsIssue) (id : String) : Prop :=
  ∃ i, lookupIssue issues id = some i ∧ i.status = BeadsStatus.closed

/-- Preservation of identity fields between tracker states: every issue
present before is present after with the same title, description and
priority. -/
def beadsLe (b b' : BeadsState) : Prop :=
  ∀ id i, lookupIssue b.issues id = some i →
    ∃ i', lookupIssue b'.issues id = some i' ∧ i'.title = i.title ∧
      i'.description = i.description ∧ i'.priority = i.priority

/-- Modelled from the spec: the backward-sync status reconstruction rule as
§4.4 words it (closed with a "Cancelled" note → cancelled; closed otherwise
→ completed; in_progress → in_progress; otherwise pending), used to compare
against `beadsIssueToTodo`. -/
def specReconstructedStatus (issue : BeadsIssue) : TodoStatus :=
  if issue.status = BeadsStatus.closed then
    (if notesHasCancelled issue.notes then TodoStatus.cancelled
     else TodoStatus.completed)
  else if issue.status = BeadsStatus.in_progress then TodoStatus.in_progress
  else TodoStatus.pending

/-- Tracker-state evolution facts shared by every engine phase: identity
fields of existing issues are preserved, freshness of the id counter is
maintained, the counter is monotone, and no issue is ever deleted. -/
def beadsStep (st st' : RunSt) : Prop :=
  beadsLe st.world.beads st'.world.beads
  ∧ (FreshOk st.world.beads → FreshOk st'.world.beads)
  ∧ st.world.beads.nextId ≤ st'.world.beads.nextId
  ∧ (∀ id, lookupIssue st'.world.beads.issues id = none →
      lookupIssue st.world.beads.issues id = none)

/-- Facts shared by every engine phase other than a save: `beadsStep`, the
backing file untouched, an empty tape staying empty, and the trace extended
by save-free events only. -/
def stepsTo (st st' : RunSt) : Prop :=
  beadsStep st st'
  ∧ st'.world.file = st.world.file
  ∧ (st.tape = [] → st'.tape = [])
  ∧ ∃ d, st'.trace = st.trace ++ d ∧ saveCount d = 0

/-- Postconditions of a successful per-todo loop run (`processTodos`) with
an all-success tape: `map0`/`map1` are the correlation maps before/after,
`ids` the incoming todo ids. -/
structure LoopOut (st0 st1 : RunSt) (map0 map1 : List (String × String))
    (ids : List String) : Prop where
  steps : stepsTo st0 st1
  tapeNil : st1.tape = []
  fresh : FreshOk st1.world.beads
  mono : ∀ tid bid, recGet map0 tid = some bid → recGet map1 tid = some bid
  cover : ∀ tid, tid ∈ ids → (recGet map1 tid).isSome
  keySub : ∀ tid, (recGet map1 tid).isSome → (recGet map0 tid).isSome ∨ tid ∈ ids
  newOnly : ∀ tid bid, recGet map1 tid = some bid →
    recGet map0 tid = some bid ∨ lookupIssue st0.world.beads.issues bid = none
  closes : ∀ s, (lookupIssue st0.world.beads.issues s).isSome →
    (∀ tid bid, recGet map0 tid = some bid → bid ≠ s) →
    closesOn s st1.trace = closesOn s st0.trace
  memVals : ∀ e, e ∈ map1 → e ∈ map0 ∨
    lookupIssue st0.world.beads.issues e.2 = none

/-- Postconditions of the removed-todo pass (`removeDeletedGo`) iterating
`snap` against `seen`: entries of seen todos are kept verbatim, entries of
unseen todos are deleted and their issues closed, and nothing else is
closed. -/
structure RemOut (st0 st1 : RunSt) (cur0 cur1 : List (String × String))
    (snap : List (String × String)) (seen : List String) : Prop where
  steps : stepsTo st0 st1
  keep : ∀ tid, tid ∈ seen → recGet cur1 tid = recGet cur0 tid
  noAdd : ∀ tid, recGet cur0 tid = none → recGet cur1 tid = none
  keySub : ∀ tid, (recGet cur1 tid).isSome → (recGet cur0 tid).isSome
  dropUnseen : ∀ tid, tid ∉ seen → tid ∈ snap.map Prod.fst →
    recGet cur1 tid = none
  closedRemoved : ∀ tid bid, (tid, bid) ∈ snap → tid ∉ seen →
    (lookupIssue st0.world.beads.issues bid).isSome →
    closedAt st1.world.beads.issues bid
  closedPres : ∀ bid, closedAt st0.world.beads.issues bid →
    closedAt st1.world.beads.issues bid
  closesNe : ∀ s, (∀ e ∈ snap, e.2 ≠ s) →
    closesOn s st1.trace = closesOn s st0.trace

/-! ### Association-list lemmas -/

theorem recGet_recSet_self {α : Type} (m : List (String × α)) (k : String) (v : α) :
    recGet (recSet m k v) k = some v := by
  induction m with
  | nil => simp [recSet, recGet]
  | cons kv r ih =>
      obtain ⟨k', w⟩ := kv
      by_cases h : k' = k
      · simp [recSet, recGet, h]
      · simp [recSet, recGet, h, ih]

theorem recGet_recSet_ne {α : Type} (m : List (String × α)) (k k' : String)
    (v : α) (h : k' ≠ k) : recGet (recSet m k v) k' = recGet m k' := by
  induction m with
  | nil => simp [recSet, recGet, Ne.symm h]
  | cons kv r ih =>
      obtain ⟨k0, w⟩ := kv
      by_cases h0 : k0 = k
      · subst h0
        simp [recSet, recGet, Ne.symm h]
      · simp [recSet, recGet, h0, ih]

theorem recSet_eq_of_get {α : Type} (m : List (String × α)) (k : String)
    (v : α) (h : recGet m k = some v) : recSet m k v = m := by
  induction m with
  | nil => simp [recGet] at h
  | cons kv r ih =>
      obtain ⟨k0, w⟩ := kv
      by_cases h0 : k0 = k
      · simp [recGet, h0] at h
        simp [recSet, h0, h]
      · simp [recGet, h0] at h
        simp [recSet, h0, ih h]

theorem recGet_recDel_self {α : Type} (m : List (String × α)) (k : String) :
    recGet (recDel m k) k = none := by
  induction m with
  | nil => simp [recDel, recGet]
  | cons kv r ih =>
      obtain ⟨k0, w⟩ := kv
      by_cases h0 : k0 = k
      · simp [recDel, h0, ih]
      · simp [recDel, recGet, h0, ih]

theorem recGet_recDel_ne {α : Type} (m : List (String × α)) (k k' : String)
    (h : k' ≠ k) : recGet (recDel m k) k' = recGet m k' := by
  induction m with
  | nil => simp [recDel]
  | cons kv r ih =>
      obtain ⟨k0, w⟩ := kv
      by_cases h0 : k0 = k
      · subst h0
        simp [recDel, recGet, Ne.symm h, ih]
      · simp [recDel, recGet, h0, ih]

theorem recGet_mem {α : Type} {m : List (String × α)} {k : String} {v : α}
    (h : recGet m k = some v) : (k, v) ∈ m := by
  induction m with
  | nil => simp [recGet] at h
  | cons kv r ih =>
      obtain ⟨k0, w⟩ := kv
      by_cases h0 : k0 = k
      · subst h0
        simp only [recGet, if_pos rfl] at h
        cases h
        exact List.mem_cons_self _ _
      · simp only [recGet, h0, if_false] at h
        exact List.mem_cons_of_mem _ (ih h)

theorem recGet_isSome_of_mem {α : Type} {m : List (String × α)}
    {e : String × α} (h : e ∈ m) : (recGet m e.1).isSome := by
  induction m with
  | nil => simp at h
  | cons kv r ih =>
      obtain ⟨k0, w⟩ := kv
      rcases List.mem_cons.mp h with rfl | h2
      · simp [recGet]
      · by_cases h0 : k0 = e.1
        · simp [recGet, h0]
        · simp only [recGet, h0, if_false]
          exact ih h2

theorem memKeys_of_recGet_isSome {α : Type} {m : List (String × α)}
    {k : String} (h : (recGet m k).isSome) : k ∈ m.map Prod.fst := by
  obtain ⟨v, hv⟩ := Option.isSome_iff_exists.mp h
  have := recGet_mem hv
  exact List.mem_map.mpr ⟨(k, v), this, rfl⟩

theorem recSet_mem_of_get_none {α : Type} (m : List (String × α)) (k : String)
    (v : α) (hg : recGet m k = none) :
    ∀ e, e ∈ recSet m k v → e ∈ m ∨ e = (k, v) := by
  induction m with
  | nil =>
      intro e he
      simp [recSet] at he
      exact Or.inr he
  | cons kv r ih =>
      obtain ⟨k0, w⟩ := kv
      by_cases h0 : k0 = k
      · subst h0
        simp [recGet] at hg
      · intro e he
        simp only [recGet, h0, if_false] at hg
        simp only [recSet, h0, if_false] at he
        rcases List.mem_cons.mp he with rfl | h2
        · exact Or.inl (List.mem_cons_self _ _)
        · rcases ih hg e h2 with h3 | h3
          · exact Or.inl (List.mem_cons_of_mem _ h3)
          · exact Or.inr h3

theorem recSet_recSet {α : Type} (m : List (String × α)) (k : String)
    (v w : α) : recSet (recSet m k v) k w = recSet m k w := by
  induction m with
  | nil => simp [recSet]
  | cons kv r ih =>
      obtain ⟨k0, u⟩ := kv
      by_cases h0 : k0 = k
      · simp [recSet, h0]
      · simp [recSet, h0, ih]

/-! ### Tracker lookup lemmas -/

theorem lookupIssue_append_some {l l' : List BeadsIssue} {id : String}
    {i : BeadsIssue} (h : lookupIssue l id = some i) :
    lookupIssue (l ++ l') id = some i := by
  induction l with
  | nil => simp [lookupIssue] at h
  | cons j r ih =>
      by_cases hj : j.id = id
      · simp [lookupIssue, hj] at h ⊢
        exact h
      · simp [lookupIssue, hj] at h ⊢
        exact ih h

theorem lookupIssue_append_none {l : List BeadsIssue} {id : String}
    (l' : List BeadsIssue) (h : lookupIssue l id = none) :
    lookupIssue (l ++ l') id = lookupIssue l' id := by
  induction l with
  | nil => simp
  | cons j r ih =>
      by_cases hj : j.id = id
      · simp [lookupIssue, hj] at h
      · simp [lookupIssue, hj] at h ⊢
        exact ih h

theorem lookupIssue_map_presId (f : BeadsIssue → BeadsIssue)
    (hf : ∀ i, (f i).id = i.id) (l : List BeadsIssue) (id : String) :
    lookupIssue (l.map f) id = (lookupIssue l id).map f := by
  induction l with
  | nil => simp [lookupIssue]
  | cons j r ih =>
      by_cases hj : j.id = id
      · simp [lookupIssue, hf, hj]
      · simp [lookupIssue, hf, hj, ih]

theorem lookupIssue_applyStatus (l : List BeadsIssue) (target : String)
    (s : BeadsStatus) (id : String) :
    lookupIssue (applyStatus l target s) id =
      (lookupIssue l id).map
        (fun i => if i.id = target then { i with status := s } else i) :=
  lookupIssue_map_presId _ (fun i => by by_cases h : i.id = target <;> simp [h]) l id

theorem lookupIssue_applyNotes (l : List BeadsIssue) (target : String)
    (n : String) (id : String) :
    lookupIssue (applyNotes l target n) id =
      (lookupIssue l id).map
        (fun i => if i.id = target then { i with notes := some n } else i) :=
  lookupIssue_map_presId _ (fun i => by by_cases h : i.id = target <;> simp [h]) l id

theorem lookupIssue_applyClose (l : List BeadsIssue) (target : String)
    (reason : String) (id : String) :
    lookupIssue (applyClose l target reason) id =
      (lookupIssue l id).map
        (fun i => if i.id = target then
          { i with status := BeadsStatus.closed, notes := some reason } else i) :=
  lookupIssue_map_presId _ (fun i => by by_cases h : i.id = target <;> simp [h]) l id

theorem lookupIssue_eq_none (l : List BeadsIssue) (x : String)
    (h : ∀ i ∈ l, i.id ≠ x) : lookupIssue l x = none := by
  induction l with
  | nil => rfl
  | cons j r ih =>
      have hj : j.id ≠ x := h j (List.mem_cons_self j r)
      simp only [lookupIssue, hj, if_false]
      exact ih fun i hi => h i (List.mem_cons_of_mem j hi)

/-! ### Fresh-id lemmas -/

theorem freshId_length (n : Nat) : (freshId n).length = n + 3 := by
  have h : freshId n = String.mk ('b' :: 'd' :: '-' :: List.replicate n 'x') := rfl
  rw [h]
  simp

theorem freshId_inj {a b : Nat} (h : freshId a = freshId b) : a = b := by
  have hl := congrArg String.length h
  rw [freshId_length, freshId_length] at hl
  omega

theorem freshOk_of_short (b : BeadsState) (h : ∀ i ∈ b.issues, i.id.length < 3) :
    FreshOk b := by
  intro k _
  apply lookupIssue_eq_none
  intro i hi he
  have hlen := h i hi
  rw [he, freshId_length] at hlen
  omega

/-! ### Trace-count lemmas -/

theorem saveCount_append (a b : List Event) :
    saveCount (a ++ b) = saveCount a + saveCount b := by
  induction a with
  | nil => simp [saveCount]
  | cons e r ih => cases e <;> simp [saveCount, ih] <;> omega

theorem createCount_append (a b : List Event) :
    createCount (a ++ b) = createCount a + createCount b := by
  induction a with
  | nil => simp [createCount]
  | cons e r ih => cases e <;> simp [createCount, ih] <;> omega

theorem closesOn_append (x : String) (a b : List Event) :
    closesOn x (a ++ b) = closesOn x a ++ closesOn x b := by
  simp [closesOn, List.filter_append]

/-! ### Phase-evolution machinery -/

theorem beadsStep_refl (st : RunSt) : beadsStep st st :=
  ⟨fun _ i h => ⟨i, h, rfl, rfl, rfl⟩, fun h => h, le_rfl, fun _ h => h⟩

theorem beadsStep_trans {s1 s2 s3 : RunSt} (a : beadsStep s1 s2)
    (b : beadsStep s2 s3) : beadsStep s1 s3 := by
  obtain ⟨le12, f12, n12, m12⟩ := a
  obtain ⟨le23, f23, n23, m23⟩ := b
  refine ⟨?_, fun h => f23 (f12 h), le_trans n12 n23, fun id h => m12 id (m23 id h)⟩
  intro id i h
  obtain ⟨i2, h2, t2, d2, p2⟩ := le12 id i h
  obtain ⟨i3, h3, t3, d3, p3⟩ := le23 id i2 h2
  exact ⟨i3, h3, by rw [t3, t2], by rw [d3, d2], by rw [p3, p2]⟩

theorem stepsTo_refl (st : RunSt) : stepsTo st st :=
  ⟨beadsStep_refl st, rfl, fun h => h, [], by simp, rfl⟩

theorem stepsTo_trans {s1 s2 s3 : RunSt} (a : stepsTo s1 s2)
    (b : stepsTo s2 s3) : stepsTo s1 s3 := by
  obtain ⟨ab, af, at', ad, adtr, ads⟩ := a
  obtain ⟨bb, bf, bt, bd, bdtr, bds⟩ := b
  refine ⟨beadsStep_trans ab bb, by rw [bf, af], fun h => bt (at' h), ad ++ bd, ?_, ?_⟩
  · rw [bdtr, adtr, List.append_assoc]
  · rw [saveCount_append, ads, bds]

theorem stepsTo_mk (st st' : RunSt)
    (hb : st'.world.beads = st.world.beads)
    (hf : st'.world.file = st.world.file)
    (ht : st.tape = [] → st'.tape = [])
    (d : List Event) (htr : st'.trace = st.trace ++ d) (hd : saveCount d = 0) :
    stepsTo st st' := by
  refine ⟨⟨?_, ?_, ?_, ?_⟩, hf, ht, d, htr, hd⟩
  · intro id i h
    exact ⟨i, by rw [hb]; exact h, rfl, rfl, rfl⟩
  · intro h
    rw [hb]
    exact h
  · rw [hb]
  · intro id h
    rw [hb] at h
    exact h

theorem beadsStep_mapIssues (st st' : RunSt) (f : BeadsIssue → BeadsIssue)
    (hb : st'.world.beads.issues = st.world.beads.issues.map f)
    (hn : st'.world.beads.nextId = st.world.beads.nextId)
    (hf : ∀ i, (f i).id = i.id ∧ (f i).title = i.title ∧
      (f i).description = i.description ∧ (f i).priority = i.priority) :
    beadsStep st st' := by
  have hid : ∀ i, (f i).id = i.id := fun i => (hf i).1
  refine ⟨?_, ?_, ?_, ?_⟩
  · intro id i h
    refine ⟨f i, ?_, (hf i).2.1, (hf i).2.2.1, (hf i).2.2.2⟩
    rw [hb, lookupIssue_map_presId f hid, h]
    rfl
  · intro hfr k hk
    rw [hb, lookupIssue_map_presId f hid]
    rw [hn] at hk
    simp [hfr k hk]
  · rw [hn]
  · intro id h
    rw [hb, lookupIssue_map_presId f hid] at h
    simpa using h

/-! ### Evolution facts for the primitive tracker calls -/

theorem stepsTo_callShow (st : RunSt) (id : String) :
    stepsTo st (callShow st id).2 := by
  refine stepsTo_mk _ _ rfl rfl (fun h => ?_) [Event.bdShow id] rfl rfl
  simp [callShow, h, takeTape]

theorem stepsTo_callCreate (st : RunSt) (title issue_type : String)
    (priority : Int) (parent : Option String) (description : String) :
    stepsTo st (callCreate st title issue_type priority parent description).2 := by
  unfold callCreate
  by_cases hok : (takeTape st.tape).1 = true
  · simp only [hok, if_true]
    refine ⟨⟨?_, ?_, ?_, ?_⟩, rfl, fun h => by simp [h, takeTape],
      [Event.create title issue_type priority parent description], rfl, rfl⟩
    · intro id i h
      exact ⟨i, lookupIssue_append_some h, rfl, rfl, rfl⟩
    · intro hfr k hk
      dsimp only at hk ⊢
      rw [lookupIssue_append_none _ (hfr k (by omega))]
      have hne : (newIssue title issue_type priority description
          (freshId st.world.beads.nextId)).id ≠ freshId k := by
        intro hh
        have := freshId_inj hh
        omega
      simp [lookupIssue, hne]
    · dsimp only
      omega
    · intro id h
      cases hcl : lookupIssue st.world.beads.issues id with
      | none => rfl
      | some i =>
          rw [lookupIssue_append_some hcl] at h
          simp at h
  · simp only [hok, if_false]
    refine stepsTo_mk _ _ rfl rfl (fun h => by simp [h, takeTape])
      [Event.create title issue_type priority parent description] rfl rfl

theorem stepsTo_callUpdateStatus (st : RunSt) (id : String) (s : BeadsStatus) :
    stepsTo st (callUpdateStatus st id s).2 := by
  unfold callUpdateStatus
  dsimp only
  split
  · refine ⟨beadsStep_mapIssues _ _
      (fun i => if i.id = id then { i with status := s } else i) rfl rfl ?_,
      rfl, fun h => by simp [h, takeTape], [Event.updateStatus id s], rfl, rfl⟩
    intro i
    by_cases hi : i.id = id <;> simp [hi]
  · exact stepsTo_mk _ _ rfl rfl (fun h => by simp [h, takeTape])
      [Event.updateStatus id s] rfl rfl

theorem stepsTo_callUpdateNotes (st : RunSt) (id : String) (n : String) :
    stepsTo st (callUpdateNotes st id n).2 := by
  unfold callUpdateNotes
  dsimp only
  split
  · refine ⟨beadsStep_mapIssues _ _
      (fun i => if i.id = id then { i with notes := some n } else i) rfl rfl ?_,
      rfl, fun h => by simp [h, takeTape], [Event.updateNotes id n], rfl, rfl⟩
    intro i
    by_cases hi : i.id = id <;> simp [hi]
  · exact stepsTo_mk _ _ rfl rfl (fun h => by simp [h, takeTape])
      [Event.updateNotes id n] rfl rfl

theorem stepsTo_callClose (st : RunSt) (id : String) (reason : String) :
    stepsTo st (callClose st id reason).2 := by
  unfold callClose
  dsimp only
  split
  · split
    · refine ⟨beadsStep_mapIssues _ _
        (fun i => if i.id = id then
          { i with status := BeadsStatus.closed, notes := some reason } else i)
        rfl rfl ?_,
        rfl, fun h => by simp [h, takeTape], [Event.close id reason], rfl, rfl⟩
      intro i
      by_cases hi : i.id = id <;> simp [hi]
    · exact stepsTo_mk _ _ rfl rfl (fun h => by simp [h, takeTape])
        [Event.close id reason] rfl rfl
  · exact stepsTo_mk _ _ rfl rfl (fun h => by simp [h, takeTape])
      [Event.close id reason] rfl rfl

theorem saveMapping_beads (st : RunSt) (now : Nat) (m : TodoBeadsMapping) :
    (saveMapping st now m).2.world.beads = st.world.beads := rfl

theorem saveMapping_file (st : RunSt) (now : Nat) (m : TodoBeadsMapping) :
    (saveMapping st now m).2.world.file =
      FileContent.valid { m with lastSync := now } := rfl

theorem saveMapping_trace (st : RunSt) (now : Nat) (m : TodoBeadsMapping) :
    (saveMapping st now m).2.trace =
      st.trace ++ [Event.save { m with lastSync := now }] := rfl

theorem saveMapping_tape (st : RunSt) (now : Nat) (m : TodoBeadsMapping) :
    (saveMapping st now m).2.tape = st.tape := rfl

/-! ### Evolution facts for the engine phases -/

theorem stepsTo_updateBeadsIssue (st : RunSt) (bid : String) (todo : TodoItem) :
    stepsTo st (updateBeadsIssue st bid todo) := by
  unfold updateBeadsIssue
  split
  · exact stepsTo_callClose _ _ _
  · exact stepsTo_callUpdateStatus _ _ _

theorem stepsTo_createBeadsIssue (st : RunSt) (sid : String) (todo : TodoItem) :
    stepsTo st (createBeadsIssue st sid todo).2 := by
  unfold createBeadsIssue
  dsimp only
  have h1 := stepsTo_callCreate st todo.content "task"
    ((PRIORITY_TO_BEADS todo.priority).getD 2) (some sid)
    ("OpenCode todo ID: " ++ todo.id)
  cases hcc : callCreate st todo.content "task"
      ((PRIORITY_TO_BEADS todo.priority).getD 2) (some sid)
      ("OpenCode todo ID: " ++ todo.id) with
  | mk res st' =>
      rw [hcc] at h1
      cases res with
      | none => exact h1
      | some newId =>
          cases hstatus : todo.status with
          | pending => exact h1
          | in_progress =>
              exact stepsTo_trans h1
                (stepsTo_callUpdateStatus st' newId BeadsStatus.in_progress)
          | completed =>
              exact stepsTo_trans h1 (stepsTo_callClose st' newId "Completed")
          | cancelled =>
              exact stepsTo_trans h1
                (stepsTo_callClose st' newId "Cancelled in OpenCode")

theorem stepsTo_closeSessionIssue (st : RunSt) (sid : String)
    (todos : List TodoItem) : stepsTo st (closeSessionIssue st sid todos) := by
  unfold closeSessionIssue
  dsimp only
  split
  case h_1 st1 heq =>
    have h1 := stepsTo_callUpdateNotes st sid
      (mkSummary (todos.filter fun t => t.status == TodoStatus.completed).length
        (todos.filter fun t => t.status == TodoStatus.cancelled).length)
    rw [heq] at h1
    exact stepsTo_trans h1 (stepsTo_callClose _ _ _)
  case h_2 st1 heq =>
    have h1 := stepsTo_callUpdateNotes st sid
      (mkSummary (todos.filter fun t => t.status == TodoStatus.completed).length
        (todos.filter fun t => t.status == TodoStatus.cancelled).length)
    rw [heq] at h1
    exact h1

theorem stepsTo_processTodos (todos : List TodoItem) :
    ∀ (st : RunSt) (sid : String) (map : List (String × String)),
      stepsTo st (processTodos st sid map todos).2 := by
  induction todos with
  | nil => intro st sid map; exact stepsTo_refl st
  | cons todo rest ih =>
      intro st sid map
      unfold processTodos
      cases hg : recGet map todo.id with
      | some bid =>
          exact stepsTo_trans (stepsTo_updateBeadsIssue st bid todo) (ih _ sid map)
      | none =>
          have h1 := stepsTo_createBeadsIssue st sid todo
          cases hcb : createBeadsIssue st sid todo with
          | mk r st' =>
              rw [hcb] at h1
              cases r with
              | error e => exact h1
              | ok bid => exact stepsTo_trans h1 (ih st' sid (recSet map todo.id bid))

/-! ### Evaluation lemmas for the primitive calls -/

theorem callShow_nil (st : RunSt) (id : String) (h : st.tape = []) :
    callShow st id = (lookupIssue st.world.beads.issues id,
      { st with tape := [], trace := st.trace ++ [Event.bdShow id] }) := by
  unfold callShow
  rw [h]
  rfl

theorem callCreate_nil (st : RunSt) (title issue_type : String) (priority : Int)
    (parent : Option String) (description : String) (h : st.tape = []) :
    callCreate st title issue_type priority parent description =
      (some (freshId st.world.beads.nextId),
        { st with
          world := { st.world with
            beads :=
              { issues := st.world.beads.issues ++
                  [newIssue title issue_type priority description
                    (freshId st.world.beads.nextId)],
                nextId := st.world.beads.nextId + 1 } },
          tape := [],
          trace := st.trace ++
            [Event.create title issue_type priority parent description] }) := by
  unfold callCreate
  rw [h]
  rfl

theorem callUpdateStatus_nil_found (st : RunSt) (id : String) (s : BeadsStatus)
    (i : BeadsIssue) (h : st.tape = [])
    (hl : lookupIssue st.world.beads.issues id = some i) :
    callUpdateStatus st id s = (true,
      { st with
        world := { st.world with
          beads := { st.world.beads with
            issues := applyStatus st.world.beads.issues id s } },
        tape := [], trace := st.trace ++ [Event.updateStatus id s] }) := by
  unfold callUpdateStatus
  rw [h, hl]
  rfl

theorem callUpdateNotes_nil_found (st : RunSt) (id : String) (n : String)
    (i : BeadsIssue) (h : st.tape = [])
    (hl : lookupIssue st.world.beads.issues id = some i) :
    callUpdateNotes st id n = (true,
      { st with
        world := { st.world with
          beads := { st.world.beads with
            issues := applyNotes st.world.beads.issues id n } },
        tape := [], trace := st.trace ++ [Event.updateNotes id n] }) := by
  unfold callUpdateNotes
  rw [h, hl]
  rfl

theorem callClose_nil_open (st : RunSt) (id reason : String) (i : BeadsIssue)
    (h : st.tape = []) (hl : lookupIssue st.world.beads.issues id = some i)
    (hs : i.status ≠ BeadsStatus.closed) :
    callClose st id reason = (true,
      { st with
        world := { st.world with
          beads := { st.world.beads with
            issues := applyClose st.world.beads.issues id reason } },
        tape := [], trace := st.trace ++ [Event.close id reason] }) := by
  unfold callClose
  rw [h, hl]
  dsimp only
  rw [if_pos ⟨rfl, hs⟩]
  rfl

theorem callClose_nil_closed (st : RunSt) (id reason : String) (i : BeadsIssue)
    (h : st.tape = []) (hl : lookupIssue st.world.beads.issues id = some i)
    (hs : i.status = BeadsStatus.closed) :
    callClose st id reason = (false,
      { st with tape := [], trace := st.trace ++ [Event.close id reason] }) := by
  unfold callClose
  rw [h, hl]
  dsimp only
  rw [if_neg fun hc => hc.2 hs]
  rfl

theorem callClose_absent (st : RunSt) (id reason : String)
    (h : st.tape = []) (hl : lookupIssue st.world.beads.issues id = none) :
    callClose st id reason = (false,
      { st with tape := [], trace := st.trace ++ [Event.close id reason] }) := by
  unfold callClose
  rw [h, hl]
  rfl

/-! ### Trace shape of the primitive calls (any tape) -/

theorem callShow_trace (st : RunSt) (id : String) :
    (callShow st id).2.trace = st.trace ++ [Event.bdShow id] := rfl

theorem callCreate_trace (st : RunSt) (title issue_type : String)
    (priority : Int) (parent : Option String) (description : String) :
    (callCreate st title issue_type priority parent description).2.trace =
      st.trace ++ [Event.create title issue_type priority parent description] := by
  unfold callCreate
  dsimp only
  split <;> rfl

theorem callUpdateStatus_trace (st : RunSt) (id : String) (s : BeadsStatus) :
    (callUpdateStatus st id s).2.trace =
      st.trace ++ [Event.updateStatus id s] := by
  unfold callUpdateStatus
  dsimp only
  split <;> rfl

theorem callUpdateNotes_trace (st : RunSt) (id : String) (n : String) :
    (callUpdateNotes st id n).2.trace =
      st.trace ++ [Event.updateNotes id n] := by
  unfold callUpdateNotes
  dsimp only
  split <;> rfl

theorem callClose_trace (st : RunSt) (id reason : String) :
    (callClose st id reason).2.trace = st.trace ++ [Event.close id reason] := by
  unfold callClose
  dsimp only
  split
  · split <;> rfl
  · rfl

theorem updateBeadsIssue_event (st : RunSt) (bid : String) (todo : TodoItem) :
    ∃ ev, (updateBeadsIssue st bid todo).trace = st.trace ++ [ev] ∧
      ((∃ s, ev = Event.updateStatus bid s) ∨ (∃ r, ev = Event.close bid r)) := by
  unfold updateBeadsIssue
  split
  · exact ⟨_, callClose_trace _ _ _, Or.inr ⟨_, rfl⟩⟩
  · exact ⟨_, callUpdateStatus_trace _ _ _, Or.inl ⟨_, rfl⟩⟩

theorem beadsLe_isSome {b b' : BeadsState} (h : beadsLe b b') {s : String}
    (hs : (lookupIssue b.issues s).isSome) :
    (lookupIssue b'.issues s).isSome := by
  obtain ⟨i, hi⟩ := Option.isSome_iff_exists.mp hs
  obtain ⟨i', hi', _⟩ := h s i hi
  simp [hi']

theorem closesOn_nil_of_ne (s bid reason : String) (h : bid ≠ s) :
    closesOn s [Event.close bid reason] = [] := by
  simp [closesOn, h]

theorem closesOn_single_create (s : String) (title issue_type : String)
    (priority : Int) (parent : Option String) (description : String) :
    closesOn s [Event.create title issue_type priority parent description] = [] := by
  simp [closesOn]

theorem closesOn_single_updateStatus (s id : String) (x : BeadsStatus) :
    closesOn s [Event.updateStatus id x] = [] := by
  simp [closesOn]

theorem closesOn_single_updateNotes (s id n : String) :
    closesOn s [Event.updateNotes id n] = [] := by
  simp [closesOn]

theorem closesOn_single_bdShow (s id : String) :
    closesOn s [Event.bdShow id] = [] := by
  simp [closesOn]

theorem closesOn_single_save (s : String) (m : TodoBeadsMapping) :
    closesOn s [Event.save m] = [] := by
  simp [closesOn]

/-- Under an all-success tape and a fresh tracker counter, creating a todo's
issue succeeds, returns a previously-unused issue id, and closes nothing
that already existed. -/
theorem createBeadsIssue_ok (st : RunSt) (sid : String) (todo : TodoItem)
    (h : st.tape = []) (hf : FreshOk st.world.beads) :
    ∃ bid st1, createBeadsIssue st sid todo = (Except.ok bid, st1) ∧
      stepsTo st st1 ∧ st1.tape = [] ∧ FreshOk st1.world.beads ∧
      lookupIssue st.world.beads.issues bid = none ∧
      (∀ s, (lookupIssue st.world.beads.issues s).isSome →
        closesOn s st1.trace = closesOn s st.trace) := by
  have hcc := callCreate_nil st todo.content "task"
    ((PRIORITY_TO_BEADS todo.priority).getD 2) (some sid)
    ("OpenCode todo ID: " ++ todo.id) h
  have hs := stepsTo_callCreate st todo.content "task"
    ((PRIORITY_TO_BEADS todo.priority).getD 2) (some sid)
    ("OpenCode todo ID: " ++ todo.id)
  rw [hcc] at hs
  have hbidnone : lookupIssue st.world.beads.issues
      (freshId st.world.beads.nextId) = none := hf _ le_rfl
  have hlook : lookupIssue (st.world.beads.issues ++
      [newIssue todo.content "task" ((PRIORITY_TO_BEADS todo.priority).getD 2)
        ("OpenCode todo ID: " ++ todo.id) (freshId st.world.beads.nextId)])
      (freshId st.world.beads.nextId) =
      some (newIssue todo.content "task" ((PRIORITY_TO_BEADS todo.priority).getD 2)
        ("OpenCode todo ID: " ++ todo.id) (freshId st.world.beads.nextId)) := by
    rw [lookupIssue_append_none _ hbidnone]
    simp [lookupIssue, newIssue]
  unfold createBeadsIssue
  dsimp only
  rw [hcc]
  cases hstatus : todo.status with
  | pending =>
      refine ⟨_, _, rfl, hs, rfl, hs.1.2.1 hf, hbidnone, ?_⟩
      intro s _
      dsimp only
      rw [closesOn_append, closesOn_single_create, List.append_nil]
  | in_progress =>
      have hu := stepsTo_callUpdateStatus
        { st with
          world := { st.world with
            beads :=
              { issues := st.world.beads.issues ++
                  [newIssue todo.content "task"
                    ((PRIORITY_TO_BEADS todo.priority).getD 2)
                    ("OpenCode todo ID: " ++ todo.id)
                    (freshId st.world.beads.nextId)],
                nextId := st.world.beads.nextId + 1 } },
          tape := [],
          trace := st.trace ++
            [Event.create todo.content "task"
              ((PRIORITY_TO_BEADS todo.priority).getD 2) (some sid)
              ("OpenCode todo ID: " ++ todo.id)] }
        (freshId st.world.beads.nextId) BeadsStatus.in_progress
      rw [callUpdateStatus_nil_found _ _ _ _ rfl hlook] at hu
      dsimp only
      rw [callUpdateStatus_nil_found _ _ _ _ rfl hlook]
      refine ⟨_, _, rfl, stepsTo_trans hs hu, rfl,
        hu.1.2.1 (hs.1.2.1 hf), hbidnone, ?_⟩
      intro s _
      dsimp only
      rw [closesOn_append, closesOn_append, closesOn_single_create,
        closesOn_single_updateStatus, List.append_nil, List.append_nil]
  | completed =>
      have hu := stepsTo_callClose
        { st with
          world := { st.world with
            beads :=
              { issues := st.world.beads.issues ++
                  [newIssue todo.content "task"
                    ((PRIORITY_TO_BEADS todo.priority).getD 2)
                    ("OpenCode todo ID: " ++ todo.id)
                    (freshId st.world.beads.nextId)],
                nextId := st.world.beads.nextId + 1 } },
          tape := [],
          trace := st.trace ++
            [Event.create todo.content "task"
              ((PRIORITY_TO_BEADS todo.priority).getD 2) (some sid)
              ("OpenCode todo ID: " ++ todo.id)] }
        (freshId st.world.beads.nextId) "Completed"
      rw [callClose_nil_open _ _ _ _ rfl hlook (by simp [newIssue])] at hu
      dsimp only
      rw [callClose_nil_open _ _ _ _ rfl hlook (by simp [newIssue])]
      refine ⟨_, _, rfl, stepsTo_trans hs hu, rfl,
        hu.1.2.1 (hs.1.2.1 hf), hbidnone, ?_⟩
      intro s hsome
      have hne : freshId st.world.beads.nextId ≠ s := by
        intro hh
        rw [hh] at hbidnone
        rw [hbidnone] at hsome
        simp at hsome
      dsimp only
      rw [closesOn_append, closesOn_append, closesOn_single_create,
        closesOn_nil_of_ne _ _ _ hne, List.append_nil, List.append_nil]
  | cancelled =>
      have hu := stepsTo_callClose
        { st with
          world := { st.world with
            beads :=
              { issues := st.world.beads.issues ++
                  [newIssue todo.content "task"
                    ((PRIORITY_TO_BEADS todo.priority).getD 2)
                    ("OpenCode todo ID: " ++ todo.id)
                    (freshId st.world.beads.nextId)],
                nextId := st.world.beads.nextId + 1 } },
          tape := [],
          trace := st.trace ++
            [Event.create todo.content "task"
              ((PRIORITY_TO_BEADS todo.priority).getD 2) (some sid)
              ("OpenCode todo ID: " ++ todo.id)] }
        (freshId st.world.beads.nextId) "Cancelled in OpenCode"
      rw [callClose_nil_open _ _ _ _ rfl hlook (by simp [newIssue])] at hu
      dsimp only
      rw [callClose_nil_open _ _ _ _ rfl hlook (by simp [newIssue])]
      refine ⟨_, _, rfl, stepsTo_trans hs hu, rfl,
        hu.1.2.1 (hs.1.2.1 hf), hbidnone, ?_⟩
      intro s hsome
      have hne : freshId st.world.beads.nextId ≠ s := by
        intro hh
        rw [hh] at hbidnone
        rw [hbidnone] at hsome
        simp at hsome
      dsimp only
      rw [closesOn_append, closesOn_append, closesOn_single_create,
        closesOn_nil_of_ne _ _ _ hne, List.append_nil, List.append_nil]

theorem stepsTo_removeDeletedGo (snap : List (String × String)) :
    ∀ (st : RunSt) (cur : List (String × String)) (seen : List String),
      stepsTo st (removeDeletedGo st cur seen snap).2 := by
  induction snap with
  | nil => intro st cur seen; exact stepsTo_refl st
  | cons e rest ih =>
      intro st cur seen
      obtain ⟨tid, bid⟩ := e
      unfold removeDeletedGo
      by_cases hs : tid ∈ seen
      · simp only [hs, if_true]
        exact ih st cur seen
      · simp only [hs, if_false]
        exact stepsTo_trans (stepsTo_callClose st bid "Todo removed from OpenCode")
          (ih _ _ seen)

/-- Main characterization of a successful per-todo loop under an
all-success tape: every incoming todo ends up correlated, existing
correlations are preserved verbatim, new correlations use previously
unused issue ids, and no pre-existing issue outside the correlation map is
closed. -/
theorem processTodos_ok (todos : List TodoItem) :
    ∀ (st : RunSt) (sid : String) (map : List (String × String)),
      st.tape = [] → FreshOk st.world.beads →
      ∃ map1 st1, processTodos st sid map todos = (Except.ok map1, st1) ∧
        LoopOut st st1 map map1 (todos.map fun t => t.id) := by
  induction todos with
  | nil =>
      intro st sid map h hf
      refine ⟨map, st, rfl, ?_⟩
      exact {
        steps := stepsTo_refl st
        tapeNil := h
        fresh := hf
        mono := fun _ _ hh => hh
        cover := fun tid htid => by simp at htid
        keySub := fun tid hh => Or.inl hh
        newOnly := fun tid bid hh => Or.inl hh
        closes := fun s _ _ => rfl
        memVals := fun _ he => Or.inl he }
  | cons todo rest ih =>
      intro st sid map h hf
      unfold processTodos
      cases hg : recGet map todo.id with
      | some bid =>
          have hstep := stepsTo_updateBeadsIssue st bid todo
          have htp : (updateBeadsIssue st bid todo).tape = [] := hstep.2.2.1 h
          have hfr : FreshOk (updateBeadsIssue st bid todo).world.beads :=
            hstep.1.2.1 hf
          obtain ⟨map1, st1, heq, out⟩ :=
            ih (updateBeadsIssue st bid todo) sid map htp hfr
          refine ⟨map1, st1, heq, ?_⟩
          refine {
            steps := stepsTo_trans hstep out.steps
            tapeNil := out.tapeNil
            fresh := out.fresh
            mono := out.mono
            cover := ?_
            keySub := ?_
            newOnly := ?_
            closes := ?_
            memVals := ?_ }
          · intro tid htid
            simp only [List.map_cons, List.mem_cons] at htid
            cases htid with
            | inl hh =>
                subst hh
                have := out.mono _ _ hg
                simp [this]
            | inr hh => exact out.cover tid (by simpa using hh)
          · intro tid hh
            rcases out.keySub tid hh with h1 | h2
            · exact Or.inl h1
            · simp only [List.map_cons, List.mem_cons]
              exact Or.inr (Or.inr (by simpa using h2))
          · intro tid bid2 hh
            rcases out.newOnly tid bid2 hh with h1 | h2
            · exact Or.inl h1
            · exact Or.inr (hstep.1.2.2.2 _ h2)
          · intro s hsome hvals
            have hsome1 : (lookupIssue
                (updateBeadsIssue st bid todo).world.beads.issues s).isSome :=
              beadsLe_isSome hstep.1.1 hsome
            rw [out.closes s hsome1 hvals]
            obtain ⟨ev, hevtr, hev⟩ := updateBeadsIssue_event st bid todo
            rw [hevtr, closesOn_append]
            rcases hev with ⟨s2, rfl⟩ | ⟨r2, rfl⟩
            · rw [closesOn_single_updateStatus, List.append_nil]
            · rw [closesOn_nil_of_ne _ _ _ (hvals _ _ hg), List.append_nil]
          · intro e he
            rcases out.memVals e he with h1 | h2
            · exact Or.inl h1
            · exact Or.inr (hstep.1.2.2.2 _ h2)
      | none =>
          obtain ⟨bid, st1, hcb, hsteps, htape1, hfresh1, hbidnone, hcloses1⟩ :=
            createBeadsIssue_ok st sid todo h hf
          rw [hcb]
          obtain ⟨map1, st2, heq2, out⟩ :=
            ih st1 sid (recSet map todo.id bid) htape1 hfresh1
          refine ⟨map1, st2, heq2, ?_⟩
          refine {
            steps := stepsTo_trans hsteps out.steps
            tapeNil := out.tapeNil
            fresh := out.fresh
            mono := ?_
            cover := ?_
            keySub := ?_
            newOnly := ?_
            closes := ?_
            memVals := ?_ }
          · intro tid bid2 hh
            have hne : tid ≠ todo.id := by
              intro e
              rw [e, hg] at hh
              simp at hh
            refine out.mono _ _ ?_
            rw [recGet_recSet_ne map todo.id tid bid hne]
            exact hh
          · intro tid htid
            simp only [List.map_cons, List.mem_cons] at htid
            cases htid with
            | inl hh =>
                subst hh
                have := out.mono _ _ (recGet_recSet_self map todo.id bid)
                simp [this]
            | inr hh => exact out.cover tid (by simpa using hh)
          · intro tid hh
            rcases out.keySub tid hh with h1 | h2
            · by_cases he : tid = todo.id
              · subst he
                simp only [List.map_cons, List.mem_cons]
                exact Or.inr (Or.inl trivial)
              · rw [recGet_recSet_ne map todo.id tid bid he] at h1
                exact Or.inl h1
            · simp only [List.map_cons, List.mem_cons]
              exact Or.inr (Or.inr (by simpa using h2))
          · intro tid bid2 hh
            rcases out.newOnly tid bid2 hh with h1 | h2
            · by_cases he : tid = todo.id
              · subst he
                rw [recGet_recSet_self] at h1
                have hb : bid = bid2 := Option.some.inj h1
                exact Or.inr (hb ▸ hbidnone)
              · rw [recGet_recSet_ne map todo.id tid bid he] at h1
                exact Or.inl h1
            · exact Or.inr (hsteps.1.2.2.2 _ h2)
          · intro s hsome hvals
            have hsome1 : (lookupIssue st1.world.beads.issues s).isSome :=
              beadsLe_isSome hsteps.1.1 hsome
            have hvals1 : ∀ tid bid2,
                recGet (recSet map todo.id bid) tid = some bid2 → bid2 ≠ s := by
              intro tid bid2 hh
              by_cases he : tid = todo.id
              · subst he
                rw [recGet_recSet_self] at hh
                have hb : bid = bid2 := Option.some.inj hh
                subst hb
                intro e
                rw [e] at hbidnone
                rw [hbidnone] at hsome
                simp at hsome
              · rw [recGet_recSet_ne map todo.id tid bid he] at hh
                exact hvals _ _ hh
            rw [out.closes s hsome1 hvals1]
            exact hcloses1 s hsome
          · intro e he
            rcases out.memVals e he with h1 | h2
            · rcases recSet_mem_of_get_none map todo.id bid hg e h1 with h3 | h3
              · exact Or.inl h3
              · exact Or.inr (h3 ▸ hbidnone)
            · exact Or.inr (hsteps.1.2.2.2 _ h2)

theorem lookupIssue_id {l : List BeadsIssue} {x : String} {i : BeadsIssue}
    (h : lookupIssue l x = some i) : i.id = x := by
  induction l with
  | nil => simp [lookupIssue] at h
  | cons j r ih =>
      by_cases hj : j.id = x
      · simp only [lookupIssue, hj, if_true] at h
        cases h
        exact hj
      · simp only [lookupIssue, hj, if_false] at h
        exact ih h

theorem callClose_closedAt (st : RunSt) (bid reason : String) (h : st.tape = [])
    (hp : (lookupIssue st.world.beads.issues bid).isSome) :
    closedAt (callClose st bid reason).2.world.beads.issues bid := by
  obtain ⟨i, hi⟩ := Option.isSome_iff_exists.mp hp
  have hid : i.id = bid := lookupIssue_id hi
  by_cases hs : i.status = BeadsStatus.closed
  · rw [callClose_nil_closed st bid reason i h hi hs]
    exact ⟨i, hi, hs⟩
  · rw [callClose_nil_open st bid reason i h hi hs]
    refine ⟨{ i with status := BeadsStatus.closed, notes := some reason }, ?_, rfl⟩
    dsimp only
    rw [lookupIssue_applyClose, hi]
    simp [hid]

theorem callClose_closedAt_pres (st : RunSt) (x reason bid : String)
    (h : closedAt st.world.beads.issues bid) :
    closedAt (callClose st x reason).2.world.beads.issues bid := by
  obtain ⟨i, hi, hs⟩ := h
  unfold callClose
  dsimp only
  split
  · split
    · refine ⟨if i.id = x then
          { i with status := BeadsStatus.closed, notes := some reason } else i,
        ?_, ?_⟩
      · dsimp only
        rw [lookupIssue_applyClose, hi]
        rfl
      · by_cases hx : i.id = x <;> simp [hx, hs]
    · exact ⟨i, hi, hs⟩
  · exact ⟨i, hi, hs⟩

theorem callUpdateNotes_closedAt_pres (st : RunSt) (x n bid : String)
    (h : closedAt st.world.beads.issues bid) :
    closedAt (callUpdateNotes st x n).2.world.beads.issues bid := by
  obtain ⟨i, hi, hs⟩ := h
  unfold callUpdateNotes
  dsimp only
  split
  · refine ⟨if i.id = x then { i with notes := some n } else i, ?_, ?_⟩
    · dsimp only
      rw [lookupIssue_applyNotes, hi]
      rfl
    · by_cases hx : i.id = x <;> simp [hx, hs]
  · exact ⟨i, hi, hs⟩

/-- Characterization of the removed-todo pass under an all-success tape. -/
theorem removeDeletedGo_spec (snap : List (String × String)) :
    ∀ (st : RunSt) (cur : List (String × String)) (seen : List String),
      st.tape = [] →
      ∃ cur1 st1, removeDeletedGo st cur seen snap = (cur1, st1) ∧
        RemOut st st1 cur cur1 snap seen := by
  induction snap with
  | nil =>
      intro st cur seen h
      exact ⟨cur, st, rfl, {
        steps := stepsTo_refl st
        keep := fun _ _ => rfl
        noAdd := fun _ hh => hh
        keySub := fun _ hh => hh
        dropUnseen := fun tid _ htid => by simp at htid
        closedRemoved := fun tid bid hmem => by simp at hmem
        closedPres := fun _ hh => hh
        closesNe := fun _ _ => rfl }⟩
  | cons e rest ih =>
      intro st cur seen h
      obtain ⟨tid0, bid0⟩ := e
      unfold removeDeletedGo
      by_cases hseen : tid0 ∈ seen
      · simp only [hseen, if_true]
        obtain ⟨cur1, st1, heq, out⟩ := ih st cur seen h
        refine ⟨cur1, st1, heq, {
          steps := out.steps
          keep := out.keep
          noAdd := out.noAdd
          keySub := out.keySub
          dropUnseen := ?_
          closedRemoved := ?_
          closedPres := out.closedPres
          closesNe := ?_ }⟩
        · intro tid htid hmem
          simp only [List.map_cons, List.mem_cons] at hmem
          cases hmem with
          | inl hh =>
              rw [hh] at htid
              exact absurd hseen htid
          | inr hh => exact out.dropUnseen tid htid (by simpa using hh)
        · intro tid bid hmem hts hsome
          simp only [List.mem_cons] at hmem
          cases hmem with
          | inl hh =>
              cases hh
              exact absurd hseen hts
          | inr hh => exact out.closedRemoved tid bid hh hts hsome
        · intro s hvals
          exact out.closesNe s (fun e he => hvals e (List.mem_cons_of_mem _ he))
      · simp only [hseen, if_false]
        have hsteps := stepsTo_callClose st bid0 "Todo removed from OpenCode"
        have htp : (callClose st bid0 "Todo removed from OpenCode").2.tape = [] :=
          hsteps.2.2.1 h
        obtain ⟨cur1, st1, heq, out⟩ :=
          ih (callClose st bid0 "Todo removed from OpenCode").2
            (recDel cur tid0) seen htp
        refine ⟨cur1, st1, heq, {
          steps := stepsTo_trans hsteps out.steps
          keep := ?_
          noAdd := ?_
          keySub := ?_
          dropUnseen := ?_
          closedRemoved := ?_
          closedPres := ?_
          closesNe := ?_ }⟩
        · intro tid htid
          have hne : tid ≠ tid0 := fun e => hseen (e ▸ htid)
          rw [out.keep tid htid, recGet_recDel_ne cur tid0 tid hne]
        · intro tid hh
          apply out.noAdd
          by_cases hne : tid = tid0
          · subst hne
            exact recGet_recDel_self cur tid
          · rw [recGet_recDel_ne cur tid0 tid hne]
            exact hh
        · intro tid hh
          have h1 := out.keySub tid hh
          by_cases hne : tid = tid0
          · subst hne
            rw [recGet_recDel_self] at h1
            simp at h1
          · rw [recGet_recDel_ne cur tid0 tid hne] at h1
            exact h1
        · intro tid htid hmem
          simp only [List.map_cons, List.mem_cons] at hmem
          cases hmem with
          | inl hh =>
              subst hh
              apply out.noAdd
              exact recGet_recDel_self cur tid
          | inr hh => exact out.dropUnseen tid htid (by simpa using hh)
        · intro tid bid hmem hts hsome
          simp only [List.mem_cons] at hmem
          cases hmem with
          | inl hh =>
              injection hh with h1 h2
              subst h1
              subst h2
              exact out.closedPres bid
                (callClose_closedAt st bid "Todo removed from OpenCode" h hsome)
          | inr hh =>
              have hsome2 : (lookupIssue (callClose st bid0
                  "Todo removed from OpenCode").2.world.beads.issues bid).isSome :=
                beadsLe_isSome hsteps.1.1 hsome
              exact out.closedRemoved tid bid hh hts hsome2
        · intro bid hcl
          exact out.closedPres bid
            (callClose_closedAt_pres st bid0 "Todo removed from OpenCode" bid hcl)
        · intro s hvals
          have hne0 : bid0 ≠ s := hvals (tid0, bid0) (List.mem_cons_self _ _)
          rw [out.closesNe s (fun e he => hvals e (List.mem_cons_of_mem _ he)),
            callClose_trace, closesOn_append, closesOn_nil_of_ne _ _ _ hne0,
            List.append_nil]

theorem removeDeletedGo_noop (snap : List (String × String)) :
    ∀ (st : RunSt) (cur : List (String × String)) (seen : List String),
      (∀ e ∈ snap, e.1 ∈ seen) →
      removeDeletedGo st cur seen snap = (cur, st) := by
  induction snap with
  | nil => intro st cur seen _; rfl
  | cons e rest ih =>
      intro st cur seen hall
      obtain ⟨t, b⟩ := e
      unfold removeDeletedGo
      have ht : t ∈ seen := hall (t, b) (List.mem_cons_self _ _)
      simp only [ht, if_true]
      exact ih st cur seen (fun e2 he2 => hall e2 (List.mem_cons_of_mem _ he2))

theorem processTodos_allCorr (todos : List TodoItem) :
    ∀ (st : RunSt) (sid : String) (map : List (String × String)),
      (∀ t ∈ todos, (recGet map t.id).isSome) →
      ∃ st1, processTodos st sid map todos = (Except.ok map, st1) ∧
        stepsTo st st1 ∧ createCount st1.trace = createCount st.trace := by
  induction todos with
  | nil => intro st sid map _; exact ⟨st, rfl, stepsTo_refl st, rfl⟩
  | cons todo rest ih =>
      intro st sid map hcov
      obtain ⟨bid, hbid⟩ := Option.isSome_iff_exists.mp
        (hcov todo (List.mem_cons_self _ _))
      unfold processTodos
      rw [hbid]
      obtain ⟨st1, heq, hsteps, hcnt⟩ := ih (updateBeadsIssue st bid todo) sid map
        (fun t ht => hcov t (List.mem_cons_of_mem _ ht))
      refine ⟨st1, heq, stepsTo_trans (stepsTo_updateBeadsIssue st bid todo) hsteps, ?_⟩
      rw [hcnt]
      obtain ⟨ev, hevtr, hev⟩ := updateBeadsIssue_event st bid todo
      rw [hevtr, createCount_append]
      rcases hev with ⟨s2, rfl⟩ | ⟨r2, rfl⟩ <;> simp [createCount]

theorem closeSessionIssue_trace (st : RunSt) (sid : String)
    (todos : List TodoItem) (h : st.tape = [])
    (hp : (lookupIssue st.world.beads.issues sid).isSome) :
    (closeSessionIssue st sid todos).trace = st.trace ++
      [Event.updateNotes sid (mkSummary
          (todos.filter fun t => t.status == TodoStatus.completed).length
          (todos.filter fun t => t.status == TodoStatus.cancelled).length),
        Event.close sid (mkSummary
          (todos.filter fun t => t.status == TodoStatus.completed).length
          (todos.filter fun t => t.status == TodoStatus.cancelled).length)] := by
  obtain ⟨i, hi⟩ := Option.isSome_iff_exists.mp hp
  unfold closeSessionIssue
  dsimp only
  rw [callUpdateNotes_nil_found st sid _ i h hi]
  rw [callClose_trace]
  dsimp only
  rw [List.append_assoc]
  rfl

theorem closeSessionIssue_closedPres (st : RunSt) (sid : String)
    (todos : List TodoItem) (bid : String)
    (hcl : closedAt st.world.beads.issues bid) :
    closedAt (closeSessionIssue st sid todos).world.beads.issues bid := by
  unfold closeSessionIssue
  dsimp only
  split
  case h_1 st1 heq =>
      have h1 := callUpdateNotes_closedAt_pres st sid (mkSummary
        (todos.filter fun t => t.status == TodoStatus.completed).length
        (todos.filter fun t => t.status == TodoStatus.cancelled).length) bid hcl
      rw [heq] at h1
      exact callClose_closedAt_pres st1 sid _ bid h1
  case h_2 st1 heq =>
      have h1 := callUpdateNotes_closedAt_pres st sid (mkSummary
        (todos.filter fun t => t.status == TodoStatus.completed).length
        (todos.filter fun t => t.status == TodoStatus.cancelled).length) bid hcl
      rw [heq] at h1
      exact h1

theorem closeSessionIssue_createCount (st : RunSt) (sid : String)
    (todos : List TodoItem) :
    createCount (closeSessionIssue st sid todos).trace = createCount st.trace := by
  unfold closeSessionIssue
  dsimp only
  split
  case h_1 st1 heq =>
      have h2 := callUpdateNotes_trace st sid (mkSummary
        (todos.filter fun t => t.status == TodoStatus.completed).length
        (todos.filter fun t => t.status == TodoStatus.cancelled).length)
      rw [heq] at h2
      rw [callClose_trace, h2, createCount_append, createCount_append]
      simp [createCount]
  case h_2 st1 heq =>
      have h2 := callUpdateNotes_trace st sid (mkSummary
        (todos.filter fun t => t.status == TodoStatus.completed).length
        (todos.filter fun t => t.status == TodoStatus.cancelled).length)
      rw [heq] at h2
      rw [h2, createCount_append]
      simp [createCount]

theorem loadMapping_valid (d : TodoBeadsMapping) :
    loadMapping (FileContent.valid d) = d := rfl

theorem ensureTodos_sessions (m : TodoBeadsMapping) (s : String) :
    (ensureTodos m s).sessions = m.sessions := by
  unfold ensureTodos
  split <;> rfl

theorem ensureTodos_lastSync (m : TodoBeadsMapping) (s : String) :
    (ensureTodos m s).lastSync = m.lastSync := by
  unfold ensureTodos
  split <;> rfl

theorem ensureTodos_get (m : TodoBeadsMapping) (s : String) :
    recGet (ensureTodos m s).todos s = some ((recGet m.todos s).getD []) := by
  unfold ensureTodos
  cases h : recGet m.todos s with
  | some v => simp [h]
  | none => simp [h, recGet_recSet_self]

theorem ensureTodos_recSet (m : TodoBeadsMapping) (s : String)
    (fmap : List (String × String)) :
    recSet (ensureTodos m s).todos s fmap = recSet m.todos s fmap := by
  unfold ensureTodos
  cases h : recGet m.todos s with
  | some v => simp [h]
  | none => simp [h, recSet_recSet]

theorem beadsStep_congr {st st1 st2 : RunSt}
    (he : st1.world.beads = st2.world.beads) (hb : beadsStep st st1) :
    beadsStep st st2 := by
  obtain ⟨hle, hfr, hn, hm⟩ := hb
  rw [he] at hle hfr hn hm
  exact ⟨hle, hfr, hn, hm⟩

theorem getOrCreateSessionIssue_existing (st : RunSt) (now : Nat)
    (today : String) (s : String) (m : TodoBeadsMapping) (a : String)
    (i : BeadsIssue) (htape : st.tape = []) (hA : recGet m.sessions s = some a)
    (hlive : lookupIssue st.world.beads.issues a = some i) :
    getOrCreateSessionIssue st now today s m = (Except.ok a, m,
      { st with tape := [], trace := st.trace ++ [Event.bdShow a] }) := by
  unfold getOrCreateSessionIssue
  rw [hA]
  dsimp only
  rw [callShow_nil st a htape, hlive]

/-- Characterization of the anchor-creation path under an all-success tape:
the new anchor is recorded, the session todo map is reset, and the document
is persisted immediately. -/
theorem createSessionPart_ok (st : RunSt) (now : Nat) (today : String)
    (s : String) (m : TodoBeadsMapping) (htape : st.tape = [])
    (hfresh : FreshOk st.world.beads) :
    ∃ a m2 st2, createSessionPart st now today s m = (Except.ok a, m2, st2) ∧
      m2 = { sessions := recSet m.sessions s a, todos := recSet m.todos s [],
             lastSync := now } ∧
      (lookupIssue st2.world.beads.issues a).isSome ∧
      beadsStep st st2 ∧
      st2.tape = [] ∧
      st2.world.file = FileContent.valid m2 ∧
      saveCount st2.trace = saveCount st.trace + 1 ∧
      createCount st2.trace = createCount st.trace + 1 ∧
      (∀ x, closesOn x st2.trace = closesOn x st.trace) := by
  unfold createSessionPart
  dsimp only
  rw [callCreate_nil st _ _ _ _ _ htape]
  unfold saveMapping
  dsimp only
  have hstep := stepsTo_callCreate st
    ("OpenCode Session " ++ s.take 8 ++ " (" ++ today ++ ")") "epic" 2 none
    ("Tracks todos for OpenCode session " ++ s)
  rw [callCreate_nil st _ _ _ _ _ htape] at hstep
  refine ⟨freshId st.world.beads.nextId, _, _, rfl, rfl, ?_, ?_, rfl, rfl, ?_, ?_, ?_⟩
  · dsimp only
    rw [lookupIssue_append_none _ (hfresh _ le_rfl)]
    simp [lookupIssue, newIssue]
  · exact beadsStep_congr rfl hstep.1
  · dsimp only
    rw [saveCount_append, saveCount_append]
    simp [saveCount]
  · dsimp only
    rw [createCount_append, createCount_append]
    simp [createCount]
  · intro x
    dsimp only
    rw [closesOn_append, closesOn_append, closesOn_single_create,
      closesOn_single_save]
    simp

/-- Full characterization of a forward sync whose recorded anchor is alive,
under an all-success tape: the run succeeds; the document is saved exactly
once, at the very end; correlations of still-present todos survive
verbatim; removed correlations are deleted and their issues closed; the
final correlation map covers exactly the incoming ids; and the anchor
receives a close (with the summary reason) exactly when the incoming list
is non-empty and all-terminal. -/
theorem sync_anchored (w : World) (now : Nat) (today : String) (s : String)
    (todos : List TodoItem) (a : String) (i : BeadsIssue)
    (hfresh : FreshOk w.beads)
    (hA : recGet (loadMapping w.file).sessions s = some a)
    (hlive : lookupIssue w.beads.issues a = some i) :
    ∃ stF fmap,
      syncTodosToBeads { world := w, tape := [], trace := [] } now today s todos
        = (Except.ok (), stF) ∧
      loadMapping stF.world.file =
        { loadMapping w.file with
          todos := recSet (loadMapping w.file).todos s fmap, lastSync := now } ∧
      (∀ tid bid,
        recGet ((recGet (loadMapping w.file).todos s).getD []) tid = some bid →
        tid ∈ todos.map (fun t => t.id) → recGet fmap tid = some bid) ∧
      (∀ tid, (recGet fmap tid).isSome ↔ tid ∈ todos.map (fun t => t.id)) ∧
      (∀ tid bid,
        recGet ((recGet (loadMapping w.file).todos s).getD []) tid = some bid →
        tid ∉ todos.map (fun t => t.id) →
        (lookupIssue w.beads.issues bid).isSome →
        closedAt stF.world.beads.issues bid) ∧
      (saveCount stF.trace = 1 ∧
        ∃ mf, stF.trace.getLast? = some (Event.save mf) ∧
          stF.world.file = FileContent.valid mf) ∧
      ((∀ e, e ∈ (recGet (loadMapping w.file).todos s).getD [] → e.2 ≠ a) →
        closesOn a stF.trace =
          (if todos.all terminalTodo && !todos.isEmpty then
            [Event.close a (mkSummary
              (todos.filter fun t => t.status == TodoStatus.completed).length
              (todos.filter fun t => t.status == TodoStatus.cancelled).length)]
          else [])) := by
  unfold syncTodosToBeads
  dsimp only
  rw [getOrCreateSessionIssue_existing _ now today s (loadMapping w.file) a i
    rfl hA hlive]
  dsimp only
  simp only [List.nil_append]
  rw [ensureTodos_get]
  simp only [Option.getD_some]
  obtain ⟨map1, st3, heq3, out⟩ := processTodos_ok todos
    { world := w, tape := [], trace := [Event.bdShow a] } a
    ((recGet (loadMapping w.file).todos s).getD []) rfl hfresh
  rw [heq3]
  dsimp only
  obtain ⟨cur1, st4, heq4, rout⟩ := removeDeletedGo_spec map1 st3 map1
    (todos.map fun t => t.id) out.tapeNil
  rw [heq4]
  dsimp only
  have hst1a : (lookupIssue
      ({ world := w, tape := [], trace := [Event.bdShow a] } :
        RunSt).world.beads.issues a).isSome := by
    simp [hlive]
  have hst3a : (lookupIssue st3.world.beads.issues a).isSome :=
    beadsLe_isSome out.steps.1.1 hst1a
  have hst4a : (lookupIssue st4.world.beads.issues a).isSome :=
    beadsLe_isSome rout.steps.1.1 hst3a
  have hst4tape : st4.tape = [] := rout.steps.2.2.1 out.tapeNil
  obtain ⟨d3, hd3, hd3s⟩ := out.steps.2.2.2
  obtain ⟨d4, hd4, hd4s⟩ := rout.steps.2.2.2
  have hkept : ∀ tid bid,
      recGet ((recGet (loadMapping w.file).todos s).getD []) tid = some bid →
      tid ∈ todos.map (fun t => t.id) → recGet cur1 tid = some bid := by
    intro tid bid h0 hin
    rw [rout.keep tid hin]
    exact out.mono _ _ h0
  have hiff : ∀ tid, (recGet cur1 tid).isSome ↔
      tid ∈ todos.map (fun t => t.id) := by
    intro tid
    constructor
    · intro hsome
      by_contra hnin
      have h1 := rout.keySub tid hsome
      have h2 := rout.dropUnseen tid hnin (memKeys_of_recGet_isSome h1)
      rw [h2] at hsome
      simp at hsome
    · intro hin
      rw [rout.keep tid hin]
      exact out.cover tid hin
  have hclosed4 : ∀ tid bid,
      recGet ((recGet (loadMapping w.file).todos s).getD []) tid = some bid →
      tid ∉ todos.map (fun t => t.id) →
      (lookupIssue w.beads.issues bid).isSome →
      closedAt st4.world.beads.issues bid := by
    intro tid bid h0 hnin hbsome
    have hmem1 : (tid, bid) ∈ map1 := recGet_mem (out.mono _ _ h0)
    have hb3 : (lookupIssue st3.world.beads.issues bid).isSome :=
      beadsLe_isSome out.steps.1.1 hbsome
    exact rout.closedRemoved tid bid hmem1 hnin hb3
  have hvalsget1 :
      (∀ e, e ∈ (recGet (loadMapping w.file).todos s).getD [] → e.2 ≠ a) →
      ∀ tid bid,
        recGet ((recGet (loadMapping w.file).todos s).getD []) tid = some bid →
        bid ≠ a := by
    intro hvalsmem tid bid hh
    exact hvalsmem (tid, bid) (recGet_mem hh)
  have hvals1 :
      (∀ e, e ∈ (recGet (loadMapping w.file).todos s).getD [] → e.2 ≠ a) →
      ∀ e, e ∈ map1 → e.2 ≠ a := by
    intro hvalsmem e he
    rcases out.memVals e he with h1 | h2
    · exact hvalsmem e h1
    · intro hh
      rw [hh] at h2
      rw [hlive] at h2
      simp at h2
  by_cases hcond : (todos.all terminalTodo && !todos.isEmpty) = true
  · rw [if_pos hcond]
    have htr5 := closeSessionIssue_trace st4 a todos hst4tape hst4a
    refine ⟨_, cur1, rfl, ?_, hkept, hiff, ?_, ?_, ?_⟩
    · rw [saveMapping_file]
      dsimp only [loadMapping]
      rw [ensureTodos_sessions, ensureTodos_recSet]
    · intro tid bid h0 hnin hbsome
      have hcl5 := closeSessionIssue_closedPres st4 a todos bid
        (hclosed4 tid bid h0 hnin hbsome)
      rw [saveMapping_beads]
      exact hcl5
    · constructor
      · rw [saveMapping_trace, htr5, hd4, hd3]
        rw [saveCount_append, saveCount_append, saveCount_append, saveCount_append]
        simp [saveCount, hd3s, hd4s]
      · exact ⟨_, by rw [saveMapping_trace, List.getLast?_concat], rfl⟩
    · intro hvalsmem
      rw [saveMapping_trace, closesOn_append, closesOn_single_save,
        List.append_nil, htr5, closesOn_append,
        rout.closesNe a (hvals1 hvalsmem),
        out.closes a hst1a (hvalsget1 hvalsmem), if_pos hcond]
      simp [closesOn]
  · rw [if_neg hcond]
    refine ⟨_, cur1, rfl, ?_, hkept, hiff, ?_, ?_, ?_⟩
    · rw [saveMapping_file]
      dsimp only [loadMapping]
      rw [ensureTodos_sessions, ensureTodos_recSet]
    · intro tid bid h0 hnin hbsome
      rw [saveMapping_beads]
      exact hclosed4 tid bid h0 hnin hbsome
    · constructor
      · rw [saveMapping_trace, hd4, hd3]
        rw [saveCount_append, saveCount_append, saveCount_append]
        simp [saveCount, hd3s, hd4s]
      · exact ⟨_, by rw [saveMapping_trace, List.getLast?_concat], rfl⟩
    · intro hvalsmem
      rw [saveMapping_trace, closesOn_append, closesOn_single_save,
        List.append_nil, rout.closesNe a (hvals1 hvalsmem),
        out.closes a hst1a (hvalsget1 hvalsmem), if_neg hcond]
      simp [closesOn]

/-- After any successful anchor resolution, a forward sync under an
all-success tape succeeds and leaves a document whose session correlation
map covers exactly the incoming todo ids, with the anchor recorded and
alive. -/
theorem sync_tail_ok (w : World) (now : Nat) (today : String) (s : String)
    (todos : List TodoItem) (a : String) (m2 : TodoBeadsMapping) (st2 : RunSt)
    (hg : getOrCreateSessionIssue { world := w, tape := [], trace := [] } now
      today s (loadMapping w.file) = (Except.ok a, m2, st2))
    (ht2 : st2.tape = []) (hf2 : FreshOk st2.world.beads)
    (ha2 : (lookupIssue st2.world.beads.issues a).isSome)
    (hs2 : recGet m2.sessions s = some a) :
    ∃ stF fmap,
      syncTodosToBeads { world := w, tape := [], trace := [] } now today s todos
        = (Except.ok (), stF) ∧
      recGet (loadMapping stF.world.file).sessions s = some a ∧
      (lookupIssue stF.world.beads.issues a).isSome ∧
      recGet (loadMapping stF.world.file).todos s = some fmap ∧
      (∀ t ∈ todos, (recGet fmap t.id).isSome) ∧
      (∀ tid, (recGet fmap tid).isSome → tid ∈ todos.map fun t => t.id) := by
  unfold syncTodosToBeads
  dsimp only
  rw [hg]
  dsimp only
  rw [ensureTodos_get]
  simp only [Option.getD_some]
  obtain ⟨map1, st3, heq3, out⟩ := processTodos_ok todos st2 a
    ((recGet m2.todos s).getD []) ht2 hf2
  rw [heq3]
  dsimp only
  obtain ⟨cur1, st4, heq4, rout⟩ := removeDeletedGo_spec map1 st3 map1
    (todos.map fun t => t.id) out.tapeNil
  rw [heq4]
  dsimp only
  have hst3a := beadsLe_isSome out.steps.1.1 ha2
  have hst4a := beadsLe_isSome rout.steps.1.1 hst3a
  by_cases hcond : (todos.all terminalTodo && !todos.isEmpty) = true
  · rw [if_pos hcond]
    refine ⟨_, cur1, rfl, ?_, ?_, ?_, ?_, ?_⟩
    · rw [saveMapping_file]
      dsimp only [loadMapping]
      rw [ensureTodos_sessions]
      exact hs2
    · rw [saveMapping_beads]
      exact beadsLe_isSome (stepsTo_closeSessionIssue st4 a todos).1.1 hst4a
    · rw [saveMapping_file]
      dsimp only [loadMapping]
      exact recGet_recSet_self _ _ _
    · intro t ht
      rw [rout.keep t.id (List.mem_map.mpr ⟨t, ht, rfl⟩)]
      exact out.cover t.id (List.mem_map.mpr ⟨t, ht, rfl⟩)
    · intro tid hsome
      by_contra hnin
      have h1 := rout.keySub tid hsome
      have h2 := rout.dropUnseen tid hnin (memKeys_of_recGet_isSome h1)
      rw [h2] at hsome
      simp at hsome
  · rw [if_neg hcond]
    refine ⟨_, cur1, rfl, ?_, ?_, ?_, ?_, ?_⟩
    · rw [saveMapping_file]
      dsimp only [loadMapping]
      rw [ensureTodos_sessions]
      exact hs2
    · rw [saveMapping_beads]
      exact hst4a
    · rw [saveMapping_file]
      dsimp only [loadMapping]
      exact recGet_recSet_self _ _ _
    · intro t ht
      rw [rout.keep t.id (List.mem_map.mpr ⟨t, ht, rfl⟩)]
      exact out.cover t.id (List.mem_map.mpr ⟨t, ht, rfl⟩)
    · intro tid hsome
      by_contra hnin
      have h1 := rout.keySub tid hsome
      have h2 := rout.dropUnseen tid hnin (memKeys_of_recGet_isSome h1)
      rw [h2] at hsome
      simp at hsome

/-- Any forward sync under an all-success tape and a fresh tracker counter
succeeds (whatever the initial document and anchor state) and records a
live anchor plus a correlation map covering exactly the incoming ids. -/
theorem sync_ok (w : World) (now : Nat) (today : String) (s : String)
    (todos : List TodoItem) (hfresh : FreshOk w.beads) :
    ∃ stF a fmap,
      syncTodosToBeads { world := w, tape := [], trace := [] } now today s todos
        = (Except.ok (), stF) ∧
      recGet (loadMapping stF.world.file).sessions s = some a ∧
      (lookupIssue stF.world.beads.issues a).isSome ∧
      recGet (loadMapping stF.world.file).todos s = some fmap ∧
      (∀ t ∈ todos, (recGet fmap t.id).isSome) ∧
      (∀ tid, (recGet fmap tid).isSome → tid ∈ todos.map fun t => t.id) := by
  cases hA : recGet (loadMapping w.file).sessions s with
  | some a0 =>
      cases hl : lookupIssue w.beads.issues a0 with
      | some i =>
          have hg := getOrCreateSessionIssue_existing
            { world := w, tape := [], trace := [] } now today s
            (loadMapping w.file) a0 i rfl hA hl
          obtain ⟨stF, fmap, h1, h2, h3, h4, h5, h6⟩ :=
            sync_tail_ok w now today s todos a0 (loadMapping w.file) _ hg rfl
              hfresh (by simp [hl]) hA
          exact ⟨stF, a0, fmap, h1, h2, h3, h4, h5, h6⟩
      | none =>
          obtain ⟨a, m2, st2, heqc, hm2, halook, hbstep, ht2, hfile2, hsv, hcc, hcl⟩ :=
            createSessionPart_ok
              { world := w, tape := [], trace := [Event.bdShow a0] } now today s
              (loadMapping w.file) rfl hfresh
          have hg : getOrCreateSessionIssue
              { world := w, tape := [], trace := [] } now today s
              (loadMapping w.file) = (Except.ok a, m2, st2) := by
            unfold getOrCreateSessionIssue
            rw [hA]
            dsimp only
            rw [callShow_nil _ a0 rfl, hl]
            dsimp only
            simp only [List.nil_append]
            exact heqc
          have hf2 : FreshOk st2.world.beads := hbstep.2.1 hfresh
          have hs2 : recGet m2.sessions s = some a := by
            rw [hm2]
            exact recGet_recSet_self _ _ _
          obtain ⟨stF, fmap, h1, h2, h3, h4, h5, h6⟩ :=
            sync_tail_ok w now today s todos a m2 st2 hg ht2 hf2 halook hs2
          exact ⟨stF, a, fmap, h1, h2, h3, h4, h5, h6⟩
  | none =>
      obtain ⟨a, m2, st2, heqc, hm2, halook, hbstep, ht2, hfile2, hsv, hcc, hcl⟩ :=
        createSessionPart_ok { world := w, tape := [], trace := [] } now today s
          (loadMapping w.file) rfl hfresh
      have hg : getOrCreateSessionIssue
          { world := w, tape := [], trace := [] } now today s
          (loadMapping w.file) = (Except.ok a, m2, st2) := by
        unfold getOrCreateSessionIssue
        rw [hA]
        dsimp only
        exact heqc
      have hf2 : FreshOk st2.world.beads := hbstep.2.1 hfresh
      have hs2 : recGet m2.sessions s = some a := by
        rw [hm2]
        exact recGet_recSet_self _ _ _
      obtain ⟨stF, fmap, h1, h2, h3, h4, h5, h6⟩ :=
        sync_tail_ok w now today s todos a m2 st2 hg ht2 hf2 halook hs2
      exact ⟨stF, a, fmap, h1, h2, h3, h4, h5, h6⟩

/-- A forward sync whose session is already fully correlated (anchor alive,
every incoming todo id in the map, no stale keys) issues no tracker create
call and only refreshes `lastSync` in the document. -/
theorem sync_second (w1 : World) (now : Nat) (today : String) (s : String)
    (todos : List TodoItem) (a : String) (fmap : List (String × String))
    (hA : recGet (loadMapping w1.file).sessions s = some a)
    (halive : (lookupIssue w1.beads.issues a).isSome)
    (hm : recGet (loadMapping w1.file).todos s = some fmap)
    (hcov : ∀ t ∈ todos, (recGet fmap t.id).isSome)
    (hsub : ∀ tid, (recGet fmap tid).isSome → tid ∈ todos.map fun t => t.id) :
    ∃ stF,
      syncTodosToBeads { world := w1, tape := [], trace := [] } now today s todos
        = (Except.ok (), stF) ∧
      createCount stF.trace = 0 ∧
      loadMapping stF.world.file = { loadMapping w1.file with lastSync := now } := by
  obtain ⟨i, hi⟩ := Option.isSome_iff_exists.mp halive
  unfold syncTodosToBeads
  dsimp only
  rw [getOrCreateSessionIssue_existing _ now today s (loadMapping w1.file) a i
    rfl hA hi]
  dsimp only
  simp only [List.nil_append]
  rw [ensureTodos_get]
  simp only [Option.getD_some]
  rw [hm]
  simp only [Option.getD_some]
  obtain ⟨st3, heq3, hsteps3, hcnt3⟩ := processTodos_allCorr todos
    { world := w1, tape := [], trace := [Event.bdShow a] } a fmap hcov
  rw [heq3]
  dsimp only
  rw [removeDeletedGo_noop fmap st3 fmap (todos.map fun t => t.id)
    (fun e he => hsub e.1 (recGet_isSome_of_mem he))]
  dsimp only
  by_cases hcond : (todos.all terminalTodo && !todos.isEmpty) = true
  · rw [if_pos hcond]
    refine ⟨_, rfl, ?_, ?_⟩
    · rw [saveMapping_trace, createCount_append,
        closeSessionIssue_createCount, hcnt3]
      simp [createCount]
    · rw [saveMapping_file, loadMapping_valid]
      dsimp only
      rw [ensureTodos_sessions, ensureTodos_recSet, recSet_eq_of_get _ _ _ hm]
  · rw [if_neg hcond]
    refine ⟨_, rfl, ?_, ?_⟩
    · rw [saveMapping_trace, createCount_append, hcnt3]
      simp [createCount]
    · rw [saveMapping_file, loadMapping_valid]
      dsimp only
      rw [ensureTodos_sessions, ensureTodos_recSet, recSet_eq_of_get _ _ _ hm]

theorem stepsTo_saveCount {st st1 : RunSt} (h : stepsTo st st1) :
    saveCount st1.trace = saveCount st.trace := by
  obtain ⟨_, _, _, d, hd, hds⟩ := h
  rw [hd, saveCount_append, hds]
  omega

theorem beadsLe_refl (b : BeadsState) : beadsLe b b :=
  fun _ i h => ⟨i, h, rfl, rfl, rfl⟩

theorem beadsLe_trans {b1 b2 b3 : BeadsState} (a : beadsLe b1 b2)
    (b : beadsLe b2 b3) : beadsLe b1 b3 := by
  intro id i h
  obtain ⟨i2, h2, t2, d2, p2⟩ := a id i h
  obtain ⟨i3, h3, t3, d3, p3⟩ := b id i2 h2
  exact ⟨i3, h3, by rw [t3, t2], by rw [d3, d2], by rw [p3, p2]⟩

theorem createSessionPart_beadsLe (st : RunSt) (now : Nat) (today s : String)
    (m : TodoBeadsMapping) :
    beadsLe st.world.beads
      (createSessionPart st now today s m).2.2.world.beads := by
  unfold createSessionPart
  dsimp only
  cases hcc : callCreate st
      ("OpenCode Session " ++ s.take 8 ++ " (" ++ today ++ ")") "epic" 2 none
      ("Tracks todos for OpenCode session " ++ s) with
  | mk res st1 =>
      have h1 := (stepsTo_callCreate st
        ("OpenCode Session " ++ s.take 8 ++ " (" ++ today ++ ")") "epic" 2 none
        ("Tracks todos for OpenCode session " ++ s)).1.1
      rw [hcc] at h1
      cases res with
      | none => exact h1
      | some id0 =>
          dsimp only
          rw [saveMapping_beads]
          exact h1

theorem gOC_beadsLe (st : RunSt) (now : Nat) (today s : String)
    (m : TodoBeadsMapping) :
    beadsLe st.world.beads
      (getOrCreateSessionIssue st now today s m).2.2.world.beads := by
  unfold getOrCreateSessionIssue
  cases hA : recGet m.sessions s with
  | none => exact createSessionPart_beadsLe st now today s m
  | some a0 =>
      dsimp only
      cases hcs : callShow st a0 with
      | mk res st1 =>
          have h1 := (stepsTo_callShow st a0).1.1
          rw [hcs] at h1
          cases res with
          | some i => exact h1
          | none =>
              exact beadsLe_trans h1 (createSessionPart_beadsLe st1 now today s m)

/-- Whatever the tape and outcome, a forward sync never changes the title,
description or priority of any issue that already exists in the tracker. -/
theorem sync_beadsLe (st : RunSt) (now : Nat) (today s : String)
    (todos : List TodoItem) :
    beadsLe st.world.beads
      (syncTodosToBeads st now today s todos).2.world.beads := by
  unfold syncTodosToBeads
  dsimp only
  cases hg : getOrCreateSessionIssue st now today s (loadMapping st.world.file) with
  | mk r rest =>
      obtain ⟨m1, st1⟩ := rest
      have h1 := gOC_beadsLe st now today s (loadMapping st.world.file)
      rw [hg] at h1
      cases r with
      | error e => exact h1
      | ok a =>
          dsimp only
          cases hp : processTodos st1 a
              ((recGet (ensureTodos m1 s).todos s).getD []) todos with
          | mk rr st2 =>
              have h2 := (stepsTo_processTodos todos st1 a
                ((recGet (ensureTodos m1 s).todos s).getD [])).1.1
              rw [hp] at h2
              cases rr with
              | error e => exact beadsLe_trans h1 h2
              | ok map1 =>
                  dsimp only
                  cases hr : removeDeletedGo st2 map1
                      (todos.map fun t => t.id) map1 with
                  | mk cur1 st3 =>
                      have h3 := (stepsTo_removeDeletedGo map1 st2 map1
                        (todos.map fun t => t.id)).1.1
                      rw [hr] at h3
                      dsimp only
                      by_cases hcond :
                          (todos.all terminalTodo && !todos.isEmpty) = true
                      · rw [if_pos hcond, saveMapping_beads]
                        exact beadsLe_trans h1 (beadsLe_trans h2
                          (beadsLe_trans h3
                            (stepsTo_closeSessionIssue st3 a todos).1.1))
                      · rw [if_neg hcond, saveMapping_beads]
                        exact beadsLe_trans h1 (beadsLe_trans h2 h3)

/-- The backward-read loop under an all-success tape: one issue fetched per
correlation, stale correlations skipped, the world untouched. -/
theorem readLoop_spec (entries : List (String × String)) :
    ∀ st : RunSt, st.tape = [] →
      (readLoop st entries).1 = entries.filterMap
        (fun e => (lookupIssue st.world.beads.issues e.2).map
          (fun issue => beadsIssueToTodo e.1 issue)) ∧
      (readLoop st entries).2.world = st.world := by
  induction entries with
  | nil => intro st h; exact ⟨rfl, rfl⟩
  | cons e rest ih =>
      intro st h
      obtain ⟨tid, bid⟩ := e
      unfold readLoop
      rw [callShow_nil st bid h]
      cases hl : lookupIssue st.world.beads.issues bid with
      | some issue =>
          obtain ⟨ih1, ih2⟩ := ih
            { st with tape := [], trace := st.trace ++ [Event.bdShow bid] } rfl
          refine ⟨?_, ih2⟩
          rw [List.filterMap_cons]
          rw [hl]
          dsimp only
          rw [ih1]
          rfl
      | none =>
          obtain ⟨ih1, ih2⟩ := ih
            { st with tape := [], trace := st.trace ++ [Event.bdShow bid] } rfl
          refine ⟨?_, ih2⟩
          rw [List.filterMap_cons]
          rw [hl]
          dsimp only
          rw [ih1]
          rfl

theorem readLoop_world (entries : List (String × String)) :
    ∀ st : RunSt, (readLoop st entries).2.world = st.world := by
  induction entries with
  | nil => intro st; rfl
  | cons e rest ih =>
      intro st
      obtain ⟨tid, bid⟩ := e
      unfold readLoop
      cases hcs : callShow st bid with
      | mk res st1 =>
          have hw : st1.world = st.world := by
            have h0 : (callShow st bid).2.world = st.world := rfl
            rw [hcs] at h0
            exact h0
          cases res with
          | some issue => exact (ih st1).trans hw
          | none => exact (ih st1).trans hw

theorem readTodos_world (st : RunSt) (s : String) :
    (readTodosFromBeads st s).2.world = st.world := by
  unfold readTodosFromBeads
  dsimp only
  cases hA : recGet (loadMapping st.world.file).sessions s with
  | none => rfl
  | some a => exact readLoop_world _ st

theorem beadsIssueToTodo_spec (tid : String) (issue : BeadsIssue) :
    beadsIssueToTodo tid issue =
      { id := tid, content := issue.title,
        status := specReconstructedStatus issue,
        priority := (PRIORITY_FROM_BEADS issue.priority).getD "medium" } := by
  unfold beadsIssueToTodo specReconstructedStatus
  cases issue.status <;> simp

theorem readTodosFromBeads_spec (w : World) (s : String) :
    (recGet (loadMapping w.file).sessions s = none →
      (readTodosFromBeads { world := w, tape := [], trace := [] } s).1 = []) ∧
    (∀ a, recGet (loadMapping w.file).sessions s = some a →
      (readTodosFromBeads { world := w, tape := [], trace := [] } s).1 =
        ((recGet (loadMapping w.file).todos s).getD []).filterMap
          (fun e => (lookupIssue w.beads.issues e.2).map
            (fun issue => beadsIssueToTodo e.1 issue))) := by
  constructor
  · intro h
    unfold readTodosFromBeads
    dsimp only
    rw [h]
  · intro a h
    unfold readTodosFromBeads
    dsimp only
    rw [h]
    exact (readLoop_spec _ _ rfl).1

/-! ### Claim theorems -/

/-- C1, counterexample. The claim says a tracker-create failure for one
task is fatal only for that task: the engine should continue with the
remaining tasks, still run removed-task detection and still persist.
On this concrete run (anchor "A" alive, create of todo "b" fails), the
whole call aborts instead: it returns an error, issues no create for the
later todo "c", never closes the stale correlation "old"→"I0", and never
saves the document. -/
theorem C1_counterexample :
    (syncTodosToBeads
      { world := ⟨FileContent.valid
          ⟨[("sess", "A")], [("sess", [("old", "I0")])], 5⟩,
          ⟨[⟨"A", "anchor", none, BeadsStatus.«open», 2, "epic", none⟩,
            ⟨"I0", "old task", none, BeadsStatus.«open», 2, "task", none⟩], 0⟩⟩,
        tape := [true, false], trace := [] } 9 "d2" "sess"
      [⟨"b", "B", TodoStatus.pending, "medium"⟩,
       ⟨"c", "C", TodoStatus.pending, "low"⟩]).1 =
      Except.error "Failed to create beads issue for todo b" ∧
    (syncTodosToBeads
      { world := ⟨FileContent.valid
          ⟨[("sess", "A")], [("sess", [("old", "I0")])], 5⟩,
          ⟨[⟨"A", "anchor", none, BeadsStatus.«open», 2, "epic", none⟩,
            ⟨"I0", "old task", none, BeadsStatus.«open», 2, "task", none⟩], 0⟩⟩,
        tape := [true, false], trace := [] } 9 "d2" "sess"
      [⟨"b", "B", TodoStatus.pending, "medium"⟩,
       ⟨"c", "C", TodoStatus.pending, "low"⟩]).2.trace =
      [Event.bdShow "A",
       Event.create "B" "task" 2 (some "A") "OpenCode todo ID: b"] ∧
    saveCount (syncTodosToBeads
      { world := ⟨FileContent.valid
          ⟨[("sess", "A")], [("sess", [("old", "I0")])], 5⟩,
          ⟨[⟨"A", "anchor", none, BeadsStatus.«open», 2, "epic", none⟩,
            ⟨"I0", "old task", none, BeadsStatus.«open», 2, "task", none⟩], 0⟩⟩,
        tape := [true, false], trace := [] } 9 "d2" "sess"
      [⟨"b", "B", TodoStatus.pending, "medium"⟩,
       ⟨"c", "C", TodoStatus.pending, "low"⟩]).2.trace = 0 :=
  ⟨rfl, by decide, by decide⟩

/-- C1, amended. A tracker-create failure for an individual task issue
aborts the whole syncTodosToBeads call: whenever the per-todo loop fails
after a successful anchor resolution, the call returns that error, no
further tracker operation happens (the returned state is the loop state),
the backing file is exactly what it was after anchor resolution, and no
additional save is performed — in particular removed-task detection and
the final persist are skipped. -/
theorem C1_theorem (w : World) (tape : List Bool) (now : Nat)
    (today s : String) (todos : List TodoItem) (a : String)
    (m1 : TodoBeadsMapping) (st1 : RunSt) (e : String) (st2 : RunSt)
    (hg : getOrCreateSessionIssue { world := w, tape := tape, trace := [] } now
      today s (loadMapping w.file) = (Except.ok a, m1, st1))
    (hp : processTodos st1 a ((recGet (ensureTodos m1 s).todos s).getD [])
      todos = (Except.error e, st2)) :
    syncTodosToBeads { world := w, tape := tape, trace := [] } now today s todos
      = (Except.error e, st2) ∧
    st2.world.file = st1.world.file ∧
    saveCount st2.trace = saveCount st1.trace := by
  have hsteps := stepsTo_processTodos todos st1 a
    ((recGet (ensureTodos m1 s).todos s).getD [])
  rw [hp] at hsteps
  refine ⟨?_, hsteps.2.1, stepsTo_saveCount hsteps⟩
  unfold syncTodosToBeads
  dsimp only
  rw [hg]
  dsimp only
  rw [hp]

/-- C1, witness for the amended theorem at a concrete run. -/
theorem C1_witness :
    syncTodosToBeads
      { world := ⟨FileContent.valid
          ⟨[("sess", "A")], [("sess", [("old", "I0")])], 5⟩,
          ⟨[⟨"A", "anchor", none, BeadsStatus.«open», 2, "epic", none⟩,
            ⟨"I0", "old task", none, BeadsStatus.«open», 2, "task", none⟩], 0⟩⟩,
        tape := [true, false], trace := [] } 9 "d2" "sess"
      [⟨"b", "B", TodoStatus.pending, "medium"⟩,
       ⟨"c", "C", TodoStatus.pending, "low"⟩] =
      (Except.error "Failed to create beads issue for todo b",
        { world := ⟨FileContent.valid
            ⟨[("sess", "A")], [("sess", [("old", "I0")])], 5⟩,
            ⟨[⟨"A", "anchor", none, BeadsStatus.«open», 2, "epic", none⟩,
              ⟨"I0", "old task", none, BeadsStatus.«open», 2, "task", none⟩], 0⟩⟩,
          tape := [],
          trace := [Event.bdShow "A",
            Event.create "B" "task" 2 (some "A") "OpenCode todo ID: b"] }) ∧
    saveCount
      ({ world := ⟨FileContent.valid
              ⟨[("sess", "A")], [("sess", [("old", "I0")])], 5⟩,
              ⟨[⟨"A", "anchor", none, BeadsStatus.«open», 2, "epic", none⟩,
                ⟨"I0", "old task", none, BeadsStatus.«open», 2, "task", none⟩],
                0⟩⟩,
         tape := [],
         trace := [Event.bdShow "A",
           Event.create "B" "task" 2 (some "A") "OpenCode todo ID: b"] } :
        RunSt).trace = 0 := by
  have h := C1_theorem
    ⟨FileContent.valid ⟨[("sess", "A")], [("sess", [("old", "I0")])], 5⟩,
      ⟨[⟨"A", "anchor", none, BeadsStatus.«open», 2, "epic", none⟩,
        ⟨"I0", "old task", none, BeadsStatus.«open», 2, "task", none⟩], 0⟩⟩
    [true, false] 9 "d2" "sess"
    [⟨"b", "B", TodoStatus.pending, "medium"⟩,
     ⟨"c", "C", TodoStatus.pending, "low"⟩]
    "A" ⟨[("sess", "A")], [("sess", [("old", "I0")])], 5⟩
    { world := ⟨FileContent.valid
        ⟨[("sess", "A")], [("sess", [("old", "I0")])], 5⟩,
        ⟨[⟨"A", "anchor", none, BeadsStatus.«open», 2, "epic", none⟩,
          ⟨"I0", "old task", none, BeadsStatus.«open», 2, "task", none⟩], 0⟩⟩,
      tape := [false], trace := [Event.bdShow "A"] }
    "Failed to create beads issue for todo b"
    { world := ⟨FileContent.valid
        ⟨[("sess", "A")], [("sess", [("old", "I0")])], 5⟩,
        ⟨[⟨"A", "anchor", none, BeadsStatus.«open», 2, "epic", none⟩,
          ⟨"I0", "old task", none, BeadsStatus.«open», 2, "task", none⟩], 0⟩⟩,
      tape := [],
      trace := [Event.bdShow "A",
        Event.create "B" "task" 2 (some "A") "OpenCode todo ID: b"] }
    (by rfl) (by rfl)
  exact ⟨h.1, by decide⟩

/-- C2, counterexample. The claim says every syncForward invocation
persists the document exactly once, at the end, and never persists a
partial in-memory state earlier. On a first sync of a fresh session the
engine saves twice: `getOrCreateSessionIssue` persists the document right
after creating the anchor — before any task's tracker operations, with the
session's correlation map still empty — and the call saves again at the
end. -/
theorem C2_counterexample :
    (syncTodosToBeads
      { world := ⟨FileContent.absent, ⟨[], 0⟩⟩,
        tape := [], trace := [] } 7 "d1" "s"
      [⟨"t1", "T", TodoStatus.pending, "high"⟩]).2.trace =
      [Event.create "OpenCode Session s (d1)" "epic" 2 none
         "Tracks todos for OpenCode session s",
       Event.save ⟨[("s", "bd-")], [("s", [])], 7⟩,
       Event.create "T" "task" 1 (some "bd-") "OpenCode todo ID: t1",
       Event.save ⟨[("s", "bd-")], [("s", [("t1", "bd-x")])], 7⟩] ∧
    saveCount (syncTodosToBeads
      { world := ⟨FileContent.absent, ⟨[], 0⟩⟩,
        tape := [], trace := [] } 7 "d1" "s"
      [⟨"t1", "T", TodoStatus.pending, "high"⟩]).2.trace = 2 := by
  exact ⟨by decide, by decide⟩

/-- C2, amended. When the recorded session anchor exists and is verified
alive (so no anchor is created), a forward sync under an all-success tape
persists the document exactly once, as the very last effect of the call;
only the anchor-creation path performs an additional earlier save. -/
theorem C2_theorem (w : World) (now : Nat) (today s : String)
    (todos : List TodoItem) (a : String) (i : BeadsIssue)
    (hfresh : FreshOk w.beads)
    (hA : recGet (loadMapping w.file).sessions s = some a)
    (hlive : lookupIssue w.beads.issues a = some i) :
    ∃ stF, syncTodosToBeads { world := w, tape := [], trace := [] } now today s
        todos = (Except.ok (), stF) ∧
      saveCount stF.trace = 1 ∧
      ∃ mf, stF.trace.getLast? = some (Event.save mf) ∧
        stF.world.file = FileContent.valid mf := by
  obtain ⟨stF, fmap, h1, _, _, _, _, h6, _⟩ :=
    sync_anchored w now today s todos a i hfresh hA hlive
  exact ⟨stF, h1, h6.1, h6.2⟩

/-- C2, witness for the amended theorem at a concrete run. -/
theorem C2_witness :
    ∃ stF, syncTodosToBeads
        { world := ⟨FileContent.valid ⟨[("s", "A")], [("s", [("t1", "I1")])], 0⟩,
            ⟨[⟨"A", "anchor", none, BeadsStatus.«open», 2, "epic", none⟩,
              ⟨"I1", "task one", none, BeadsStatus.«open», 2, "task", none⟩],
              0⟩⟩,
          tape := [], trace := [] } 21 "d5" "s"
        [⟨"t1", "task one", TodoStatus.pending, "medium"⟩]
        = (Except.ok (), stF) ∧
      saveCount stF.trace = 1 ∧
      ∃ mf, stF.trace.getLast? = some (Event.save mf) ∧
        stF.world.file = FileContent.valid mf :=
  C2_theorem
    ⟨FileContent.valid ⟨[("s", "A")], [("s", [("t1", "I1")])], 0⟩,
      ⟨[⟨"A", "anchor", none, BeadsStatus.«open», 2, "epic", none⟩,
        ⟨"I1", "task one", none, BeadsStatus.«open», 2, "task", none⟩], 0⟩⟩
    21 "d5" "s" [⟨"t1", "task one", TodoStatus.pending, "medium"⟩]
    "A" ⟨"A", "anchor", none, BeadsStatus.«open», 2, "epic", none⟩
    (freshOk_of_short _ (by decide)) (by decide) (by decide)

/-- C3, counterexample. The claim says an established correlation is
preserved by every engine operation until a syncForward whose input list
no longer contains the task id — only then is the issue closed and the
entry deleted. On this run the input still contains "t1", yet because the
recorded anchor "A" no longer exists in the tracker,
getOrCreateSessionIssue resets the session's whole correlation map: the
call succeeds, "t1" ends up correlated to a brand-new issue "bd-x" instead
of "I1", and "I1" is left open, never closed. -/
theorem C3_counterexample :
    (syncTodosToBeads
      { world := ⟨FileContent.valid ⟨[("s", "A")], [("s", [("t1", "I1")])], 0⟩,
          ⟨[⟨"I1", "task one", none, BeadsStatus.«open», 2, "task", none⟩], 0⟩⟩,
        tape := [], trace := [] } 11 "d3" "s"
      [⟨"t1", "task one", TodoStatus.pending, "medium"⟩]).1 = Except.ok () ∧
    recGet ((recGet (loadMapping (syncTodosToBeads
      { world := ⟨FileContent.valid ⟨[("s", "A")], [("s", [("t1", "I1")])], 0⟩,
          ⟨[⟨"I1", "task one", none, BeadsStatus.«open», 2, "task", none⟩], 0⟩⟩,
        tape := [], trace := [] } 11 "d3" "s"
      [⟨"t1", "task one", TodoStatus.pending, "medium"⟩]).2.world.file).todos
        "s").getD []) "t1" = some "bd-x" ∧
    "bd-x" ≠ "I1" ∧
    (lookupIssue (syncTodosToBeads
      { world := ⟨FileContent.valid ⟨[("s", "A")], [("s", [("t1", "I1")])], 0⟩,
          ⟨[⟨"I1", "task one", none, BeadsStatus.«open», 2, "task", none⟩], 0⟩⟩,
        tape := [], trace := [] } 11 "d3" "s"
      [⟨"t1", "task one", TodoStatus.pending, "medium"⟩]).2.world.beads.issues
      "I1").map (fun j => j.status) = some BeadsStatus.«open» := by
  exact ⟨rfl, by decide, by decide, by decide⟩

/-- C3, amended. A correlation is preserved by every engine operation
until the task id disappears from a syncForward input list, provided the
session anchor recorded in the document still exists in the tracker; when
the anchor has been invalidated, anchor recreation discards the session's
correlation map without closing the old issues (see the counterexample).
Concretely: under an all-success tape with a live anchor, a correlated
task id present in the input keeps exactly its issue id, and the read path
(readTodosFromBeads) never modifies the world at all. -/
theorem C3_theorem (w : World) (now : Nat) (today s : String)
    (todos : List TodoItem) (a : String) (i : BeadsIssue) (tid bid : String)
    (hfresh : FreshOk w.beads)
    (hA : recGet (loadMapping w.file).sessions s = some a)
    (hlive : lookupIssue w.beads.issues a = some i)
    (hcorr : recGet ((recGet (loadMapping w.file).todos s).getD []) tid
      = some bid)
    (hin : tid ∈ todos.map fun t => t.id) :
    (∃ stF, syncTodosToBeads { world := w, tape := [], trace := [] } now today
        s todos = (Except.ok (), stF) ∧
      recGet ((recGet (loadMapping stF.world.file).todos s).getD []) tid
        = some bid) ∧
    (∀ (st : RunSt) (s2 : String),
      (readTodosFromBeads st s2).2.world = st.world) := by
  constructor
  · obtain ⟨stF, fmap, h1, h2, h3, _, _, _, _⟩ :=
      sync_anchored w now today s todos a i hfresh hA hlive
    refine ⟨stF, h1, ?_⟩
    rw [h2]
    dsimp only
    rw [recGet_recSet_self]
    exact h3 tid bid hcorr hin
  · exact fun st s2 => readTodos_world st s2

/-- C3, witness for the amended theorem at a concrete run. -/
theorem C3_witness :
    (∃ stF, syncTodosToBeads
        { world := ⟨FileContent.valid ⟨[("s", "A")], [("s", [("t1", "I1")])], 0⟩,
            ⟨[⟨"A", "anchor", none, BeadsStatus.«open», 2, "epic", none⟩,
              ⟨"I1", "task one", none, BeadsStatus.«open», 2, "task", none⟩],
              0⟩⟩,
          tape := [], trace := [] } 23 "d6" "s"
        [⟨"t1", "task one", TodoStatus.in_progress, "medium"⟩]
        = (Except.ok (), stF) ∧
      recGet ((recGet (loadMapping stF.world.file).todos "s").getD []) "t1"
        = some "I1") ∧
    (∀ (st : RunSt) (s2 : String),
      (readTodosFromBeads st s2).2.world = st.world) :=
  C3_theorem
    ⟨FileContent.valid ⟨[("s", "A")], [("s", [("t1", "I1")])], 0⟩,
      ⟨[⟨"A", "anchor", none, BeadsStatus.«open», 2, "epic", none⟩,
        ⟨"I1", "task one", none, BeadsStatus.«open», 2, "task", none⟩], 0⟩⟩
    23 "d6" "s" [⟨"t1", "task one", TodoStatus.in_progress, "medium"⟩]
    "A" ⟨"A", "anchor", none, BeadsStatus.«open», 2, "epic", none⟩ "t1" "I1"
    (freshOk_of_short _ (by decide)) (by decide) (by decide) (by decide)
    (by decide)

/-- C4. Idempotence of syncForward: starting from any world whose tracker
id counter is fresh, two consecutive calls with the identical task list
both succeed, the second call issues no tracker create call at all, and
the second call leaves the persisted document unchanged except for
`lastSync`. -/
theorem C4_theorem (w : World) (now1 now2 : Nat) (today1 today2 s : String)
    (todos : List TodoItem) (hfresh : FreshOk w.beads) :
    ∃ st1 st2,
      syncTodosToBeads { world := w, tape := [], trace := [] } now1 today1 s
        todos = (Except.ok (), st1) ∧
      syncTodosToBeads { world := st1.world, tape := [], trace := [] } now2
        today2 s todos = (Except.ok (), st2) ∧
      createCount st2.trace = 0 ∧
      loadMapping st2.world.file =
        { loadMapping st1.world.file with lastSync := now2 } := by
  obtain ⟨st1, a, fmap, h1, h2, h3, h4, h5, h6⟩ :=
    sync_ok w now1 today1 s todos hfresh
  obtain ⟨st2, g1, g2, g3⟩ :=
    sync_second st1.world now2 today2 s todos a fmap h2 h3 h4 h5 h6
  exact ⟨st1, st2, h1, g1, g2, g3⟩

/-- C4, witness at a concrete run (fresh session, two todos). -/
theorem C4_witness :
    ∃ st1 st2,
      syncTodosToBeads
        { world := ⟨FileContent.absent, ⟨[], 0⟩⟩,
          tape := [], trace := [] } 31 "d7" "s"
        [⟨"x", "X", TodoStatus.pending, "high"⟩,
         ⟨"y", "Y", TodoStatus.completed, "low"⟩] = (Except.ok (), st1) ∧
      syncTodosToBeads { world := st1.world, tape := [], trace := [] } 32 "d8"
        "s" [⟨"x", "X", TodoStatus.pending, "high"⟩,
             ⟨"y", "Y", TodoStatus.completed, "low"⟩] = (Except.ok (), st2) ∧
      createCount st2.trace = 0 ∧
      loadMapping st2.world.file =
        { loadMapping st1.world.file with lastSync := 32 } :=
  C4_theorem ⟨FileContent.absent, ⟨[], 0⟩⟩ 31 32 "d7" "d8" "s"
    [⟨"x", "X", TodoStatus.pending, "high"⟩,
     ⟨"y", "Y", TodoStatus.completed, "low"⟩]
    (freshOk_of_short _ (by decide))

/-- C5. The status/priority translators are deterministic total functions
matching the specified tables: task→tracker priority maps high→1,
medium→2, low→3, any other input falling back to 2 at the use site;
tracker→task priority maps 0,1→high, 2→medium, 3,4→low, any other input
falling back to medium; task→tracker status maps pending→open,
in_progress→in_progress, completed→closed, cancelled→closed. Totality is
by construction (they are Lean functions), so none of them can fail. -/
theorem C5_theorem :
    (PRIORITY_TO_BEADS "high" = some 1 ∧ PRIORITY_TO_BEADS "medium" = some 2 ∧
      PRIORITY_TO_BEADS "low" = some 3) ∧
    (∀ p, p ≠ "high" → p ≠ "medium" → p ≠ "low" →
      (PRIORITY_TO_BEADS p).getD 2 = 2) ∧
    (PRIORITY_FROM_BEADS 0 = some "high" ∧ PRIORITY_FROM_BEADS 1 = some "high" ∧
      PRIORITY_FROM_BEADS 2 = some "medium" ∧
      PRIORITY_FROM_BEADS 3 = some "low" ∧ PRIORITY_FROM_BEADS 4 = some "low") ∧
    (∀ q : Int, q ≠ 0 → q ≠ 1 → q ≠ 2 → q ≠ 3 → q ≠ 4 →
      (PRIORITY_FROM_BEADS q).getD "medium" = "medium") ∧
    (STATUS_TO_BEADS TodoStatus.pending = BeadsStatus.«open» ∧
      STATUS_TO_BEADS TodoStatus.in_progress = BeadsStatus.in_progress ∧
      STATUS_TO_BEADS TodoStatus.completed = BeadsStatus.closed ∧
      STATUS_TO_BEADS TodoStatus.cancelled = BeadsStatus.closed) := by
  refine ⟨⟨rfl, rfl, rfl⟩, ?_, ⟨rfl, rfl, rfl, rfl, rfl⟩, ?_,
    ⟨rfl, rfl, rfl, rfl⟩⟩
  · intro p h1 h2 h3
    simp [PRIORITY_TO_BEADS, h1, h2, h3]
  · intro q h0 h1 h2 h3 h4
    simp [PRIORITY_FROM_BEADS, h0, h1, h2, h3, h4]

/-- C5, witness: the fallback clauses at unmapped inputs. -/
theorem C5_witness :
    (PRIORITY_TO_BEADS "urgent").getD 2 = 2 ∧
    (PRIORITY_FROM_BEADS 9).getD "medium" = "medium" :=
  ⟨C5_theorem.2.1 "urgent" (by decide) (by decide) (by decide),
   C5_theorem.2.2.2.1 9 (by decide) (by decide) (by decide) (by decide)
     (by decide)⟩

/-- C6. syncBackward (readTodosFromBeads) returns an empty list when no
anchor is recorded; otherwise it returns, for each correlation whose issue
is found, a task rebuilt from the issue (original task id, issue title as
content, status per the closed/notes rule, priority translated back), and
silently skips correlations whose issue is not found. The third conjunct
checks the reconstruction rule of `beadsIssueToTodo` against the rule as
the spec words it. -/
theorem C6_theorem (w : World) (s : String) :
    (recGet (loadMapping w.file).sessions s = none →
      (readTodosFromBeads { world := w, tape := [], trace := [] } s).1 = []) ∧
    (∀ a, recGet (loadMapping w.file).sessions s = some a →
      (readTodosFromBeads { world := w, tape := [], trace := [] } s).1 =
        ((recGet (loadMapping w.file).todos s).getD []).filterMap
          (fun e => (lookupIssue w.beads.issues e.2).map
            (fun issue => beadsIssueToTodo e.1 issue))) ∧
    (∀ tid issue, beadsIssueToTodo tid issue =
      { id := tid, content := issue.title,
        status := specReconstructedStatus issue,
        priority := (PRIORITY_FROM_BEADS issue.priority).getD "medium" }) :=
  ⟨(readTodosFromBeads_spec w s).1, (readTodosFromBeads_spec w s).2,
    fun tid issue => beadsIssueToTodo_spec tid issue⟩

/-- C6, witness: a session with no anchor yields [], and a session with a
found (closed, "Cancelled"-noted) issue plus a stale correlation yields
exactly the reconstruction of the found issue. -/
theorem C6_witness :
    (readTodosFromBeads
      { world := ⟨FileContent.absent, ⟨[], 0⟩⟩, tape := [], trace := [] }
      "s").1 = [] ∧
    (readTodosFromBeads
      { world := ⟨FileContent.valid
          ⟨[("s", "A")], [("s", [("t1", "I1"), ("t2", "ZZ")])], 0⟩,
          ⟨[⟨"I1", "Fix bug", none, BeadsStatus.closed, 1, "task",
              some "Cancelled in OpenCode"⟩], 0⟩⟩,
        tape := [], trace := [] } "s").1 =
      ((recGet (loadMapping (FileContent.valid
          ⟨[("s", "A")], [("s", [("t1", "I1"), ("t2", "ZZ")])], 0⟩)).todos
        "s").getD []).filterMap
        (fun e => (lookupIssue
          [⟨"I1", "Fix bug", none, BeadsStatus.closed, 1, "task",
            some "Cancelled in OpenCode"⟩] e.2).map
          (fun issue => beadsIssueToTodo e.1 issue)) :=
  ⟨(C6_theorem ⟨FileContent.absent, ⟨[], 0⟩⟩ "s").1 (by decide),
   (C6_theorem
      ⟨FileContent.valid
        ⟨[("s", "A")], [("s", [("t1", "I1"), ("t2", "ZZ")])], 0⟩,
        ⟨[⟨"I1", "Fix bug", none, BeadsStatus.closed, 1, "task",
            some "Cancelled in OpenCode"⟩], 0⟩⟩ "s").2.1 "A" (by decide)⟩

/-- C7, counterexample. The claim says every correlation whose task id is
absent from the input has its issue closed and its entry deleted, while
correlations of present tasks are kept. On this run the recorded anchor
"A" is gone from the tracker, so the whole correlation map is reset
before the removal pass: the removed task "b"'s issue "I2" is never
closed, and the present task "a" does not keep its correlation to "I1"
(it is re-correlated to the fresh issue "bd-x"). -/
theorem C7_counterexample :
    (syncTodosToBeads
      { world := ⟨FileContent.valid
          ⟨[("s", "A")], [("s", [("a", "I1"), ("b", "I2")])], 0⟩,
          ⟨[⟨"I1", "ta", none, BeadsStatus.«open», 2, "task", none⟩,
            ⟨"I2", "tb", none, BeadsStatus.«open», 2, "task", none⟩], 0⟩⟩,
        tape := [], trace := [] } 13 "d4" "s"
      [⟨"a", "ta", TodoStatus.pending, "medium"⟩]).1 = Except.ok () ∧
    (lookupIssue (syncTodosToBeads
      { world := ⟨FileContent.valid
          ⟨[("s", "A")], [("s", [("a", "I1"), ("b", "I2")])], 0⟩,
          ⟨[⟨"I1", "ta", none, BeadsStatus.«open», 2, "task", none⟩,
            ⟨"I2", "tb", none, BeadsStatus.«open», 2, "task", none⟩], 0⟩⟩,
        tape := [], trace := [] } 13 "d4" "s"
      [⟨"a", "ta", TodoStatus.pending, "medium"⟩]).2.world.beads.issues
      "I2").map (fun j => j.status) = some BeadsStatus.«open» ∧
    recGet ((recGet (loadMapping (syncTodosToBeads
      { world := ⟨FileContent.valid
          ⟨[("s", "A")], [("s", [("a", "I1"), ("b", "I2")])], 0⟩,
          ⟨[⟨"I1", "ta", none, BeadsStatus.«open», 2, "task", none⟩,
            ⟨"I2", "tb", none, BeadsStatus.«open», 2, "task", none⟩], 0⟩⟩,
        tape := [], trace := [] } 13 "d4" "s"
      [⟨"a", "ta", TodoStatus.pending, "medium"⟩]).2.world.file).todos
        "s").getD []) "a" = some "bd-x" ∧
    "bd-x" ≠ "I1" :=
  ⟨rfl, by decide, by decide, by decide⟩

/-- C7, amended. Provided the recorded session anchor still exists in the
tracker (and under an all-success tape): every correlation whose task id
is absent from the input list is deleted and its issue (if it exists) is
closed; correlations of present task ids are kept verbatim; and after the
call the session's correlation map contains exactly the incoming task
ids. -/
theorem C7_theorem (w : World) (now : Nat) (today s : String)
    (todos : List TodoItem) (a : String) (i : BeadsIssue)
    (hfresh : FreshOk w.beads)
    (hA : recGet (loadMapping w.file).sessions s = some a)
    (hlive : lookupIssue w.beads.issues a = some i) :
    ∃ stF, syncTodosToBeads { world := w, tape := [], trace := [] } now today s
        todos = (Except.ok (), stF) ∧
      (∀ tid bid,
        recGet ((recGet (loadMapping w.file).todos s).getD []) tid = some bid →
        tid ∈ todos.map (fun t => t.id) →
        recGet ((recGet (loadMapping stF.world.file).todos s).getD []) tid
          = some bid) ∧
      (∀ tid bid,
        recGet ((recGet (loadMapping w.file).todos s).getD []) tid = some bid →
        tid ∉ todos.map (fun t => t.id) →
        recGet ((recGet (loadMapping stF.world.file).todos s).getD []) tid
            = none ∧
          ((lookupIssue w.beads.issues bid).isSome →
            closedAt stF.world.beads.issues bid)) ∧
      (∀ tid,
        (recGet ((recGet (loadMapping stF.world.file).todos s).getD [])
          tid).isSome ↔ tid ∈ todos.map (fun t => t.id)) := by
  obtain ⟨stF, fmap, h1, h2, h3, h4, h5, _, _⟩ :=
    sync_anchored w now today s todos a i hfresh hA hlive
  have hfm : (recGet (loadMapping stF.world.file).todos s).getD [] = fmap := by
    rw [h2]
    dsimp only
    rw [recGet_recSet_self]
    rfl
  refine ⟨stF, h1, ?_, ?_, ?_⟩
  · intro tid bid h0 hin
    rw [hfm]
    exact h3 tid bid h0 hin
  · intro tid bid h0 hnin
    constructor
    · rw [hfm]
      exact Option.not_isSome_iff_eq_none.mp (fun hs => hnin ((h4 tid).mp hs))
    · intro hbsome
      exact h5 tid bid h0 hnin hbsome
  · intro tid
    rw [hfm]
    exact h4 tid

/-- C7, witness at a concrete run: sync with [a, b] recorded, input [a]. -/
theorem C7_witness :
    ∃ stF, syncTodosToBeads
        { world := ⟨FileContent.valid
            ⟨[("s", "A")], [("s", [("a", "I1"), ("b", "I2")])], 0⟩,
            ⟨[⟨"A", "anchor", none, BeadsStatus.«open», 2, "epic", none⟩,
              ⟨"I1", "ta", none, BeadsStatus.«open», 2, "task", none⟩,
              ⟨"I2", "tb", none, BeadsStatus.«open», 2, "task", none⟩], 0⟩⟩,
          tape := [], trace := [] } 41 "d9" "s"
        [⟨"a", "ta", TodoStatus.pending, "medium"⟩] = (Except.ok (), stF) ∧
      (∀ tid bid,
        recGet ((recGet (loadMapping (FileContent.valid
          ⟨[("s", "A")], [("s", [("a", "I1"), ("b", "I2")])], 0⟩)).todos
          "s").getD []) tid = some bid →
        tid ∈ [⟨"a", "ta", TodoStatus.pending, "medium"⟩].map
          (fun t : TodoItem => t.id) →
        recGet ((recGet (loadMapping stF.world.file).todos "s").getD []) tid
          = some bid) ∧
      (∀ tid bid,
        recGet ((recGet (loadMapping (FileContent.valid
          ⟨[("s", "A")], [("s", [("a", "I1"), ("b", "I2")])], 0⟩)).todos
          "s").getD []) tid = some bid →
        tid ∉ [⟨"a", "ta", TodoStatus.pending, "medium"⟩].map
          (fun t : TodoItem => t.id) →
        recGet ((recGet (loadMapping stF.world.file).todos "s").getD []) tid
            = none ∧
          ((lookupIssue [⟨"A", "anchor", none, BeadsStatus.«open», 2, "epic",
              none⟩,
            ⟨"I1", "ta", none, BeadsStatus.«open», 2, "task", none⟩,
            ⟨"I2", "tb", none, BeadsStatus.«open», 2, "task", none⟩]
            bid).isSome →
            closedAt stF.world.beads.issues bid)) ∧
      (∀ tid,
        (recGet ((recGet (loadMapping stF.world.file).todos "s").getD [])
          tid).isSome ↔
        tid ∈ [⟨"a", "ta", TodoStatus.pending, "medium"⟩].map
          (fun t : TodoItem => t.id)) :=
  C7_theorem
    ⟨FileContent.valid ⟨[("s", "A")], [("s", [("a", "I1"), ("b", "I2")])], 0⟩,
      ⟨[⟨"A", "anchor", none, BeadsStatus.«open», 2, "epic", none⟩,
        ⟨"I1", "ta", none, BeadsStatus.«open», 2, "task", none⟩,
        ⟨"I2", "tb", none, BeadsStatus.«open», 2, "task", none⟩], 0⟩⟩
    41 "d9" "s" [⟨"a", "ta", TodoStatus.pending, "medium"⟩]
    "A" ⟨"A", "anchor", none, BeadsStatus.«open», 2, "epic", none⟩
    (freshOk_of_short _ (by decide)) (by decide) (by decide)

/-- C8. With a recorded anchor that exists in the tracker (whatever its
status — the witness closes an already-closed anchor without error), an
all-success tape, and a well-formed document whose correlations do not
point at the anchor itself: the run succeeds, and the anchor receives a
close — carrying the summary reason counting completed and cancelled
tasks — exactly when the incoming list is non-empty and every task is
completed or cancelled; in particular an empty task list never closes the
anchor. -/
theorem C8_theorem (w : World) (now : Nat) (today s : String)
    (todos : List TodoItem) (a : String) (i : BeadsIssue)
    (hfresh : FreshOk w.beads)
    (hA : recGet (loadMapping w.file).sessions s = some a)
    (hlive : lookupIssue w.beads.issues a = some i)
    (hvals : ∀ e ∈ (recGet (loadMapping w.file).todos s).getD [], e.2 ≠ a) :
    ∃ stF, syncTodosToBeads { world := w, tape := [], trace := [] } now today s
        todos = (Except.ok (), stF) ∧
      closesOn a stF.trace =
        (if todos.all terminalTodo && !todos.isEmpty then
          [Event.close a (mkSummary
            (todos.filter fun t => t.status == TodoStatus.completed).length
            (todos.filter fun t => t.status == TodoStatus.cancelled).length)]
        else []) := by
  obtain ⟨stF, fmap, h1, _, _, _, _, _, h7⟩ :=
    sync_anchored w now today s todos a i hfresh hA hlive
  exact ⟨stF, h1, h7 hvals⟩

/-- C8, witness: an already-closed anchor with an all-terminal non-empty
list (one completed, one cancelled) is closed again without error, with
the "1 completed, 1 cancelled" summary; the same session with an empty
task list never closes the anchor. -/
theorem C8_witness :
    (∃ stF, syncTodosToBeads
        { world := ⟨FileContent.valid
            ⟨[("s", "A")], [("s", [("t1", "I1"), ("t2", "I2")])], 0⟩,
            ⟨[⟨"A", "anchor", none, BeadsStatus.closed, 2, "epic", none⟩,
              ⟨"I1", "x", none, BeadsStatus.«open», 2, "task", none⟩,
              ⟨"I2", "y", none, BeadsStatus.«open», 2, "task", none⟩], 0⟩⟩,
          tape := [], trace := [] } 51 "da" "s"
        [⟨"t1", "x", TodoStatus.completed, "medium"⟩,
         ⟨"t2", "y", TodoStatus.cancelled, "low"⟩] = (Except.ok (), stF) ∧
      closesOn "A" stF.trace =
        (if ([⟨"t1", "x", TodoStatus.completed, "medium"⟩,
              ⟨"t2", "y", TodoStatus.cancelled, "low"⟩] :
            List TodoItem).all terminalTodo &&
            !([⟨"t1", "x", TodoStatus.completed, "medium"⟩,
               ⟨"t2", "y", TodoStatus.cancelled, "low"⟩] :
            List TodoItem).isEmpty then
          [Event.close "A" (mkSummary
            (([⟨"t1", "x", TodoStatus.completed, "medium"⟩,
               ⟨"t2", "y", TodoStatus.cancelled, "low"⟩] :
              List TodoItem).filter
                fun t => t.status == TodoStatus.completed).length
            (([⟨"t1", "x", TodoStatus.completed, "medium"⟩,
               ⟨"t2", "y", TodoStatus.cancelled, "low"⟩] :
              List TodoItem).filter
                fun t => t.status == TodoStatus.cancelled).length)]
        else [])) ∧
    (∃ stE, syncTodosToBeads
        { world := ⟨FileContent.valid
            ⟨[("s", "A")], [("s", [("t1", "I1"), ("t2", "I2")])], 0⟩,
            ⟨[⟨"A", "anchor", none, BeadsStatus.closed, 2, "epic", none⟩,
              ⟨"I1", "x", none, BeadsStatus.«open», 2, "task", none⟩,
              ⟨"I2", "y", none, BeadsStatus.«open», 2, "task", none⟩], 0⟩⟩,
          tape := [], trace := [] } 52 "db" "s" [] = (Except.ok (), stE) ∧
      closesOn "A" stE.trace =
        (if ([] : List TodoItem).all terminalTodo &&
            !([] : List TodoItem).isEmpty then
          [Event.close "A" (mkSummary
            (([] : List TodoItem).filter
              fun t => t.status == TodoStatus.completed).length
            (([] : List TodoItem).filter
              fun t => t.status == TodoStatus.cancelled).length)]
        else [])) :=
  ⟨C8_theorem
    ⟨FileContent.valid ⟨[("s", "A")], [("s", [("t1", "I1"), ("t2", "I2")])], 0⟩,
      ⟨[⟨"A", "anchor", none, BeadsStatus.closed, 2, "epic", none⟩,
        ⟨"I1", "x", none, BeadsStatus.«open», 2, "task", none⟩,
        ⟨"I2", "y", none, BeadsStatus.«open», 2, "task", none⟩], 0⟩⟩
    51 "da" "s"
    [⟨"t1", "x", TodoStatus.completed, "medium"⟩,
     ⟨"t2", "y", TodoStatus.cancelled, "low"⟩]
    "A" ⟨"A", "anchor", none, BeadsStatus.closed, 2, "epic", none⟩
    (freshOk_of_short _ (by decide)) (by decide) (by decide) (by decide),
   C8_theorem
    ⟨FileContent.valid ⟨[("s", "A")], [("s", [("t1", "I1"), ("t2", "I2")])], 0⟩,
      ⟨[⟨"A", "anchor", none, BeadsStatus.closed, 2, "epic", none⟩,
        ⟨"I1", "x", none, BeadsStatus.«open», 2, "task", none⟩,
        ⟨"I2", "y", none, BeadsStatus.«open», 2, "task", none⟩], 0⟩⟩
    52 "db" "s" []
    "A" ⟨"A", "anchor", none, BeadsStatus.closed, 2, "epic", none⟩
    (freshOk_of_short _ (by decide)) (by decide) (by decide) (by decide)⟩

/-- C9. loadMapping returns the freshly-initialized empty document
(sessions = {}, todos = {}, lastSync = 0) whenever the backing file is
absent, unreadable, or malformed; it is a total function, so it never
raises to its caller. -/
theorem C9_theorem :
    loadMapping FileContent.absent = emptyMapping ∧
    loadMapping FileContent.unreadable = emptyMapping ∧
    loadMapping FileContent.malformed = emptyMapping ∧
    emptyMapping = { sessions := [], todos := [], lastSync := 0 } :=
  ⟨rfl, rfl, rfl, rfl⟩

/-- C10. For any tape (so even runs with injected call failures) and any
inputs, a forward sync never changes the title, description or priority
of an issue that already exists in the tracker: updates to a correlated
issue only touch its status and notes, so a changed task content or
priority is never propagated. -/
theorem C10_theorem (w : World) (tape : List Bool) (now : Nat)
    (today s : String) (todos : List TodoItem) (bid : String)
    (issue : BeadsIssue)
    (h : lookupIssue w.beads.issues bid = some issue) :
    ∃ issue2, lookupIssue (syncTodosToBeads
        { world := w, tape := tape, trace := [] } now today s
        todos).2.world.beads.issues bid = some issue2 ∧
      issue2.title = issue.title ∧ issue2.description = issue.description ∧
      issue2.priority = issue.priority :=
  sync_beadsLe { world := w, tape := tape, trace := [] } now today s todos
    bid issue h

/-- C10, witness: a correlated issue keeps its creation-time title,
description and priority even when the incoming task has new content and
priority. -/
theorem C10_witness :
    ∃ issue2, lookupIssue (syncTodosToBeads
        { world := ⟨FileContent.valid
            ⟨[("s", "A")], [("s", [("t1", "I1")])], 0⟩,
            ⟨[⟨"A", "anchor", none, BeadsStatus.«open», 2, "epic", none⟩,
              ⟨"I1", "Old title", some "desc", BeadsStatus.«open», 3, "task",
                none⟩], 0⟩⟩,
          tape := [], trace := [] } 61 "dc" "s"
        [⟨"t1", "New title", TodoStatus.pending, "high"⟩]).2.world.beads.issues
        "I1" = some issue2 ∧
      issue2.title = "Old title" ∧ issue2.description = some "desc" ∧
      issue2.priority = 3 :=
  C10_theorem
    ⟨FileContent.valid ⟨[("s", "A")], [("s", [("t1", "I1")])], 0⟩,
      ⟨[⟨"A", "anchor", none, BeadsStatus.«open», 2, "epic", none⟩,
        ⟨"I1", "Old title", some "desc", BeadsStatus.«open», 3, "task",
          none⟩], 0⟩⟩
    [] 61 "dc" "s" [⟨"t1", "New title", TodoStatus.pending, "high"⟩]
    "I1" ⟨"I1", "Old title", some "desc", BeadsStatus.«open», 3, "task", none⟩
    (by decide)

end TodoBeads
